import Mathlib

/-!
# Student Management GUI: a shallow embedding of `src/main.cpp`

The program is one frame loop over a handful of widgets and a record store.
The embedding keeps the source's classes and the body of one loop iteration
(`frame`), in the source's order of statements.

Conventions of the embedding

* `float` and `double` values (times, coordinates, scores) are rationals; the
  arithmetic and the comparisons of the source are taken exactly.
* `std::string` is `List Char`.
* A `Student *` into `manager.students` is the index of the element.
* The geometry of buttons and input boxes and the two durations are never
  assigned after construction, and `scrollOffset` is never assigned at all: they
  are constants.
* `std::stof` is a parameter of the frame (`List Char → Option ℚ`, `none` for a
  throw); `std::stoi` and `std::sort` are modelled below.
* `manager.save()` appends the store to a log; what `manager.load()` reads is an
  input of the frame.
-/

namespace StudentGui

/-! ## Classes of the source -/

/-- The class `Student`. -/
structure Student where
  name : List Char
  roll : Int
  grade : List Char
  department : List Char
  cgpa : ℚ
deriving DecidableEq

/-- The mutable part of class `Button` (`x, y, w, h, label` are constants). -/
structure Button where
  pressed : Bool
  pressTime : ℚ
deriving DecidableEq

/-- The mutable part of class `InputBox` (`x, y, w, h` are constants). -/
structure InputBox where
  text : List Char
  focused : Bool
deriving DecidableEq

/-- The class `MessagePopup`; the member `duration` is written by the
constructor only and is the constant below. -/
structure MessagePopup where
  text : List Char
  showTime : ℚ
  visible : Bool
deriving DecidableEq

/-- The member `MessagePopup::duration`, fixed by the constructor. -/
def MessagePopup.duration (_p : MessagePopup) : ℚ := 6 / 5

/-- The class `DetailsPanel`; `currentStudent` is an index into the store, and
the member `animationDuration` is written by the constructor only and is the
constant below. -/
structure DetailsPanel where
  visible : Bool
  currentStudent : Option Nat
  animationStart : ℚ
deriving DecidableEq

/-- The member `DetailsPanel::animationDuration`, fixed by the constructor. -/
def DetailsPanel.animationDuration (_p : DetailsPanel) : ℚ := 3 / 10

/-- The enumeration `SortColumn`. -/
inductive SortColumn where
  | NONE
  | ROLL
  | NAME
  | GRADE
  | DEPARTMENT
  | CGPA
deriving DecidableEq

/-- The class `SortState`. -/
structure SortState where
  column : SortColumn
  ascending : Bool
deriving DecidableEq

/-- The data members of class `StudentManager`. -/
structure StudentManager where
  students : List Student
  sortState : SortState
deriving DecidableEq

/-! ## MessagePopup and DetailsPanel -/

/-- The constructor `MessagePopup()`. -/
def MessagePopup.new : MessagePopup :=
  { text := [], showTime := 0, visible := false }

/-- The method `MessagePopup::show`. -/
def MessagePopup.show (_p : MessagePopup) (msg : List Char) (currentTime : ℚ) : MessagePopup :=
  { _p with text := msg, showTime := currentTime, visible := true }

/-- The method `MessagePopup::isVisible`. -/
def MessagePopup.isVisible (p : MessagePopup) (currentTime : ℚ) : Bool :=
  if !p.visible then false
  else if currentTime - p.showTime > p.duration then false
  else true

/-- The constructor `DetailsPanel()`. -/
def DetailsPanel.new : DetailsPanel :=
  { visible := false, currentStudent := none, animationStart := 0 }

/-- The method `DetailsPanel::show`. -/
def DetailsPanel.show (p : DetailsPanel) (student : Nat) (currentTime : ℚ) : DetailsPanel :=
  let p1 := { p with currentStudent := some student }
  if !p1.visible then { p1 with visible := true, animationStart := currentTime } else p1

/-- The method `DetailsPanel::hide`. -/
def DetailsPanel.hide (p : DetailsPanel) : DetailsPanel :=
  { p with visible := false, currentStudent := none }

/-! ## Library functions used by the source -/

/-- The predicate `isspace` of the C locale. -/
def isSpaceC (c : Char) : Bool :=
  c.toNat == 32 || (decide (9 ≤ c.toNat) && decide (c.toNat ≤ 13))

/-- The predicate `isdigit`. -/
def isDigitC (c : Char) : Bool :=
  decide (48 ≤ c.toNat) && decide (c.toNat ≤ 57)

/-- The value of a run of decimal digits. -/
def digitsToNat (ds : List Char) : Nat :=
  ds.foldl (fun acc c => 10 * acc + (c.toNat - 48)) 0

/-- Splits an optional sign off the front: `(negative, rest)`. -/
def splitSign : List Char → Bool × List Char
  | c :: r => if c = '-' then (true, r) else if c = '+' then (false, r) else (false, c :: r)
  | [] => (false, [])

/-- The function `std::stoi(text)`: leading white space, an optional sign, then
the longest run of decimal digits; what follows the digits is ignored. The
result is `none` where `stoi` throws: no digit (`invalid_argument`) or a value
outside the 32-bit `int` (`out_of_range`). -/
def stoi (text : List Char) : Option Int :=
  let t := text.dropWhile isSpaceC
  let sg := splitSign t
  let ds := sg.2.takeWhile isDigitC
  if ds.isEmpty then none
  else
    let v : Int := if sg.1 then -(digitsToNat ds : Int) else (digitsToNat ds : Int)
    if v < -2147483648 ∨ 2147483647 < v then none else some v

/-- An instance of `std::stof` for plain decimal text (white space, a sign,
digits with at most one point), as the score box's input filter produces it;
the value is taken exactly. It is only used to evaluate concrete frames. -/
def stofDecimal (text : List Char) : Option ℚ :=
  let t := text.dropWhile isSpaceC
  let sg := splitSign t
  let ip := sg.2.takeWhile isDigitC
  let fp := match sg.2.dropWhile isDigitC with
    | c :: r => if c = '.' then r.takeWhile isDigitC else []
    | [] => []
  if ip.isEmpty && fp.isEmpty then none
  else
    let v : ℚ := (digitsToNat ip : ℚ) + (digitsToNat fp : ℚ) / (10 : ℚ) ^ fp.length
    some (if sg.1 then -v else v)

/-- The function `std::to_string(int)`. -/
def to_string (n : Int) : List Char :=
  if n < 0 then '-' :: Nat.toDigits 10 n.natAbs else Nat.toDigits 10 n.toNat

/-- The transform of a string by `::tolower`. -/
def lowerStr (s : List Char) : List Char := s.map Char.toLower

/-- The test `hay.find(needle) != string::npos`. -/
def strFind (hay needle : List Char) : Bool :=
  hay.tails.any (fun t => needle.isPrefixOf t)

/-- The comparison `a < b` of two `std::string`s: lexicographic on the
character codes, a proper prefix being smaller. -/
def strLt : List Char → List Char → Bool
  | [], [] => false
  | [], _ :: _ => true
  | _ :: _, [] => false
  | a :: as, b :: bs =>
    if a.toNat < b.toNat then true
    else if b.toNat < a.toNat then false
    else strLt as bs

/-- Inserts `x` in front of the first element that `comp` puts after it. -/
def sortInsert {α : Type} (comp : α → α → Bool) (x : α) : List α → List α
  | [] => [x]
  | y :: ys => if comp x y then x :: y :: ys else y :: sortInsert comp x ys

/-- The call `std::sort(begin, end, comp)`. The standard leaves the order of
equivalent elements open; the model is an insertion sort. -/
def stdSort {α : Type} (comp : α → α → Bool) : List α → List α
  | [] => []
  | x :: xs => sortInsert comp x (stdSort comp xs)

/-! ## StudentManager -/

/-- The method `StudentManager::add`. -/
def StudentManager.add (m : StudentManager) (s : Student) : StudentManager :=
  { m with students := m.students ++ [s] }

/-- The method `StudentManager::removeByRoll` (erase-remove idiom). -/
def StudentManager.removeByRoll (m : StudentManager) (roll : Int) : StudentManager :=
  { m with students := m.students.filter (fun s => !(s.roll == roll)) }

/-- The method `StudentManager::findByRoll`: the index of the first match. -/
def StudentManager.findByRoll (m : StudentManager) (roll : Int) : Option Nat :=
  let i := m.students.findIdx (fun s => s.roll == roll)
  if i < m.students.length then some i else none

/-- The test of the loop body of `StudentManager::search`. -/
def searchMatch (lowerq : List Char) (s : Student) : Bool :=
  strFind (lowerStr s.name) lowerq || strFind (to_string s.roll) lowerq

/-- The method `StudentManager::search`; each pointer is kept with its target. -/
def StudentManager.search (m : StudentManager) (q : List Char) : List (Nat × Student) :=
  m.students.enum.filter (fun p => searchMatch (lowerStr q) p.2)

/-- The method `StudentManager::sortBy`. -/
def StudentManager.sortBy (m : StudentManager) (column : SortColumn) : StudentManager :=
  let sortState : SortState :=
    if m.sortState.column = column then
      { m.sortState with ascending := !m.sortState.ascending }
    else
      { column := column, ascending := true }
  let asc := sortState.ascending
  let students : List Student :=
    match column with
    | .ROLL => stdSort (fun a b => if asc then decide (a.roll < b.roll) else decide (a.roll > b.roll)) m.students
    | .NAME => stdSort (fun a b => if asc then strLt a.name b.name else strLt b.name a.name) m.students
    | .GRADE => stdSort (fun a b => if asc then strLt a.grade b.grade else strLt b.grade a.grade) m.students
    | .DEPARTMENT =>
      stdSort (fun a b => if asc then strLt a.department b.department else strLt b.department a.department)
        m.students
    | .CGPA => stdSort (fun a b => if asc then decide (a.cgpa < b.cgpa) else decide (a.cgpa > b.cgpa)) m.students
    | .NONE => m.students
  { students := students, sortState := sortState }

/-! ## Globals, geometry and the state of `main` -/

/-- The constant `DOUBLE_CLICK_TIME`. -/
def DOUBLE_CLICK_TIME : ℚ := 3 / 10

/-- The window width `SCR_W`. -/
def SCR_W : ℚ := 1000

/-- The window height `SCR_H`. -/
def SCR_H : ℚ := 700

/-- The local `scrollOffset` of `main`, never assigned after its definition. -/
def scrollOffset : ℚ := 0

/-- The function `pointInRect`. -/
def pointInRect (px py x y w h : ℚ) : Bool :=
  decide (px ≥ x) && decide (px ≤ x + w) && decide (py ≥ y) && decide (py ≤ y + h)

/-- The fields `x, y, w, h` of a `Button` or an `InputBox`. -/
structure Rect where
  x : ℚ
  y : ℚ
  w : ℚ
  h : ℚ

/-- The call `pointInRect(mx, my, b.x, b.y, b.w, b.h)`. -/
def Rect.hit (r : Rect) (mx my : ℚ) : Bool := pointInRect mx my r.x r.y r.w r.h

/-- The local `btnY`. -/
def btnY : ℚ := SCR_H - 60

/-- Geometry of `btnAdd`. -/
def btnAddRect : Rect := ⟨20, btnY, 100, 40⟩
/-- Geometry of `btnEdit`. -/
def btnEditRect : Rect := ⟨140, btnY, 100, 40⟩
/-- Geometry of `btnDelete`. -/
def btnDeleteRect : Rect := ⟨260, btnY, 100, 40⟩
/-- Geometry of `btnSave`. -/
def btnSaveRect : Rect := ⟨380, btnY, 100, 40⟩
/-- Geometry of `btnLoad`. -/
def btnLoadRect : Rect := ⟨500, btnY, 100, 40⟩

/-- The local `inputY1`. -/
def inputY1 : ℚ := SCR_H - 110
/-- The local `inputY2`. -/
def inputY2 : ℚ := SCR_H - 155

/-- Geometry of `inputName`. -/
def inputNameRect : Rect := ⟨20, inputY1, 200, 35⟩
/-- Geometry of `inputRoll`. -/
def inputRollRect : Rect := ⟨230, inputY1, 100, 35⟩
/-- Geometry of `inputGrade`. -/
def inputGradeRect : Rect := ⟨340, inputY1, 100, 35⟩
/-- Geometry of `inputSearch`. -/
def inputSearchRect : Rect := ⟨450, inputY1, 510, 35⟩
/-- Geometry of `inputDepartment`. -/
def inputDepartmentRect : Rect := ⟨20, inputY2, 200, 35⟩
/-- Geometry of `inputCGPA`. -/
def inputCGPARect : Rect := ⟨230, inputY2, 100, 35⟩

/-- The locals `listX`, `listTop`, `listW` of the click and row handlers. -/
def listX : ℚ := 20
/-- The local `listTop`. -/
def listTop : ℚ := SCR_H - 225
/-- The local `listW`. -/
def listW : ℚ := SCR_W - 40
/-- The local `headerX`. -/
def headerX : ℚ := listX + 10
/-- The local `headerY`. -/
def headerY : ℚ := listTop - 20
/-- The local `headerH`. -/
def headerH : ℚ := 25

/-- Hit rectangle of the CGPA column header. -/
def headerCGPARect : Rect := ⟨headerX + 620, headerY - headerH, 150, headerH⟩
/-- Hit rectangle of the Grade column header. -/
def headerGradeRect : Rect := ⟨headerX + 520, headerY - headerH, 95, headerH⟩
/-- Hit rectangle of the Department column header. -/
def headerDepartmentRect : Rect := ⟨headerX + 320, headerY - headerH, 195, headerH⟩
/-- Hit rectangle of the Name column header. -/
def headerNameRect : Rect := ⟨headerX + 80, headerY - headerH, 235, headerH⟩
/-- Hit rectangle of the Roll column header. -/
def headerRollRect : Rect := ⟨headerX, headerY - headerH, 75, headerH⟩

/-- The local `panelX` of the close test: `SCR_W - panelW`. -/
def panelX : ℚ := SCR_W - 350
/-- Hit rectangle of the close button of the details panel. -/
def closeRect : Rect := ⟨panelX + 350 - 50, SCR_H - 60, 35, 35⟩

/-- The locals of `main` that live across frames, with the global
`lastClickTime`. `saveLog` records the stores handed to `manager.save()`,
the latest first. -/
structure State where
  lastClickTime : ℚ
  btnAdd : Button
  btnEdit : Button
  btnDelete : Button
  btnSave : Button
  btnLoad : Button
  inputName : InputBox
  inputRoll : InputBox
  inputGrade : InputBox
  inputSearch : InputBox
  inputDepartment : InputBox
  inputCGPA : InputBox
  manager : StudentManager
  selectedRolls : List Int
  messagePopup : MessagePopup
  detailsPanel : DetailsPanel
  saveLog : List (List Student)
deriving DecidableEq

/-- What one `glfwPollEvents()` and `glfwGetTime()` leave for the frame: the
globals written by the callbacks, the clock, and the records that
`manager.load()` would read from the file during this frame. -/
structure Input where
  currentTime : ℚ
  mouseX : ℚ
  mouseY : ℚ
  mouseJustPressed : Bool
  textInputBuffer : List Char
  keyBackspace : Bool
  keyEscape : Bool
  fileStudents : List Student

/-- The state of `main` on entry to the loop; `loaded` is what the first
`manager.load()` read. -/
def initState (loaded : List Student) : State :=
  { lastClickTime := 0
    btnAdd := ⟨false, 0⟩
    btnEdit := ⟨false, 0⟩
    btnDelete := ⟨false, 0⟩
    btnSave := ⟨false, 0⟩
    btnLoad := ⟨false, 0⟩
    inputName := ⟨[], false⟩
    inputRoll := ⟨[], false⟩
    inputGrade := ⟨[], false⟩
    inputSearch := ⟨[], false⟩
    inputDepartment := ⟨[], false⟩
    inputCGPA := ⟨[], false⟩
    manager := { students := loaded, sortState := { column := .NONE, ascending := true } }
    selectedRolls := []
    messagePopup := MessagePopup.new
    detailsPanel := DetailsPanel.new
    saveLog := [] }

/-! ## The frame -/

/-- Lines 545-558: the flags `click`, `doubleClick` and the new value of
`lastClickTime`. -/
def classifyPress (mouseJustPressed : Bool) (currentTime lastClickTime : ℚ) : Bool × Bool × ℚ :=
  if mouseJustPressed then
    (true, decide (currentTime - lastClickTime ≤ DOUBLE_CLICK_TIME), currentTime)
  else
    (false, false, lastClickTime)

/-- Lines 564-582: whether the close test of the visible panel resets `click`. -/
def panelConsumes (panel : DetailsPanel) (mx my : ℚ) : Bool :=
  panel.visible && (closeRect.hit mx my || decide (mx < panelX))

/-- Lines 586-591: the six assignments to `focused`. -/
def assignFocus (mx my : ℚ) (s : State) : State :=
  { s with
    inputName := { s.inputName with focused := inputNameRect.hit mx my }
    inputRoll := { s.inputRoll with focused := inputRollRect.hit mx my }
    inputGrade := { s.inputGrade with focused := inputGradeRect.hit mx my }
    inputSearch := { s.inputSearch with focused := inputSearchRect.hit mx my }
    inputDepartment := { s.inputDepartment with focused := inputDepartmentRect.hit mx my }
    inputCGPA := { s.inputCGPA with focused := inputCGPARect.hit mx my } }

/-- Lines 599-631: the column tested by the header chain, if any. -/
def headerColumn (mx my : ℚ) : Option SortColumn :=
  if headerCGPARect.hit mx my then some .CGPA
  else if headerGradeRect.hit mx my then some .GRADE
  else if headerDepartmentRect.hit mx my then some .DEPARTMENT
  else if headerNameRect.hit mx my then some .NAME
  else if headerRollRect.hit mx my then some .ROLL
  else none

/-- Lines 593-631: the header clicks. -/
def headerClicks (mx my : ℚ) (s : State) : State :=
  match headerColumn mx my with
  | some c => { s with manager := s.manager.sortBy c }
  | none => s

/-- Lines 649-661 and 697-708: `stof` of the score text, capped, `0` on a throw. -/
def parseCgpa (stof : List Char → Option ℚ) (text : List Char) : ℚ :=
  match stof text with
  | some v =>
    let c1 := if v > 4 then 4 else v
    if c1 < 0 then 0 else c1
  | none => 0

/-- Lines 640-648: `stoi` of the roll text, `-1` on a throw. -/
def parseRoll (text : List Char) : Int :=
  match stoi text with
  | some r => r
  | none => -1

/-- Lines 635-674: the handler of the Add button. -/
def addHandler (stof : List Char → Option ℚ) (currentTime : ℚ) (s : State) : State :=
  let s1 := { s with btnAdd := ⟨true, currentTime⟩ }
  let roll := parseRoll s1.inputRoll.text
  let cgpa := parseCgpa stof s1.inputCGPA.text
  if !s1.inputName.text.isEmpty && decide (roll ≥ 0) then
    { s1 with
      manager := s1.manager.add ⟨s1.inputName.text, roll, s1.inputGrade.text, s1.inputDepartment.text, cgpa⟩
      inputName := { s1.inputName with text := [] }
      inputRoll := { s1.inputRoll with text := [] }
      inputGrade := { s1.inputGrade with text := [] }
      inputDepartment := { s1.inputDepartment with text := [] }
      inputCGPA := { s1.inputCGPA with text := [] }
      messagePopup := s1.messagePopup.show "Student added successfully!".toList currentTime }
  else s1

/-- Lines 675-714: the handler of the Edit button. -/
def editHandler (stof : List Char → Option ℚ) (currentTime : ℚ) (s : State) : State :=
  let s1 := { s with btnEdit := ⟨true, currentTime⟩ }
  let roll := parseRoll s1.inputRoll.text
  if roll ≥ 0 then
    match s1.manager.findByRoll roll with
    | some i =>
      { s1 with
        manager :=
          { s1.manager with
            students := s1.manager.students.modify
              (fun st =>
                { st with
                  name := s1.inputName.text
                  grade := s1.inputGrade.text
                  department := s1.inputDepartment.text
                  cgpa := parseCgpa stof s1.inputCGPA.text })
              i }
        messagePopup := s1.messagePopup.show "Student updated successfully!".toList currentTime }
    | none => s1
  else s1

/-- Lines 727-730: `removeByRoll` for every selected roll, in order. -/
def removeAll (m : StudentManager) (rolls : List Int) : StudentManager :=
  rolls.foldl (fun acc r => acc.removeByRoll r) m

/-- The toast of lines 759-765 for a delete count. -/
def deleteMessage (deleteCount : Nat) : List Char :=
  if deleteCount > 1 then "Students deleted successfully!".toList
  else "Student deleted successfully!".toList

/-- Lines 715-766: the handler of the Delete button. -/
def deleteHandler (currentTime : ℚ) (s : State) : State :=
  let s1 := { s with btnDelete := ⟨true, currentTime⟩ }
  if !s1.selectedRolls.isEmpty then
    let deleteCount := s1.selectedRolls.length
    let m := removeAll s1.manager s1.selectedRolls
    { s1 with
      manager := m
      selectedRolls := []
      saveLog := m.students :: s1.saveLog
      messagePopup := s1.messagePopup.show (deleteMessage deleteCount) currentTime }
  else
    let roll := parseRoll s1.inputRoll.text
    if roll ≥ 0 then
      let m := s1.manager.removeByRoll roll
      { s1 with
        manager := m
        saveLog := m.students :: s1.saveLog
        messagePopup := s1.messagePopup.show (deleteMessage 1) currentTime }
    else s1

/-- Lines 767-775: the handler of the Save button. -/
def saveHandler (currentTime : ℚ) (s : State) : State :=
  { s with
    btnSave := ⟨true, currentTime⟩
    saveLog := s.manager.students :: s.saveLog
    messagePopup := s.messagePopup.show "Students saved successfully!".toList currentTime }

/-- Lines 776-784: the handler of the Load button. -/
def loadHandler (currentTime : ℚ) (fileStudents : List Student) (s : State) : State :=
  { s with
    btnLoad := ⟨true, currentTime⟩
    manager := { s.manager with students := fileStudents }
    messagePopup := s.messagePopup.show "Students loaded successfully!".toList currentTime }

/-- Lines 633-784: the chain of button tests. -/
def buttonClicks (stof : List Char → Option ℚ) (currentTime : ℚ) (fileStudents : List Student)
    (mx my : ℚ) (s : State) : State :=
  if btnAddRect.hit mx my then addHandler stof currentTime s
  else if btnEditRect.hit mx my then editHandler stof currentTime s
  else if btnDeleteRect.hit mx my then deleteHandler currentTime s
  else if btnSaveRect.hit mx my then saveHandler currentTime s
  else if btnLoadRect.hit mx my then loadHandler currentTime fileStudents s
  else s

/-- Lines 584-785: the body of `if (click)` once the panel has not consumed it. -/
def handleClick (stof : List Char → Option ℚ) (currentTime : ℚ) (fileStudents : List Student)
    (mx my : ℚ) (s : State) : State :=
  buttonClicks stof currentTime fileStudents mx my (headerClicks mx my (assignFocus mx my s))

/-- Lines 789-812: routing of the typed characters. -/
def keyboardInput (buf : List Char) (s : State) : State :=
  if buf.isEmpty then s
  else if s.inputName.focused then
    { s with inputName := { s.inputName with text := s.inputName.text ++ buf } }
  else if s.inputRoll.focused then
    { s with inputRoll :=
        { s.inputRoll with text := s.inputRoll.text ++ buf.filter (fun c => isDigitC c || c == '-') } }
  else if s.inputGrade.focused then
    { s with inputGrade := { s.inputGrade with text := s.inputGrade.text ++ buf } }
  else if s.inputSearch.focused then
    { s with inputSearch := { s.inputSearch with text := s.inputSearch.text ++ buf } }
  else if s.inputDepartment.focused then
    { s with inputDepartment := { s.inputDepartment with text := s.inputDepartment.text ++ buf } }
  else if s.inputCGPA.focused then
    { s with inputCGPA :=
        { s.inputCGPA with text := s.inputCGPA.text ++ buf.filter (fun c => isDigitC c || c == '.') } }
  else s

/-- Lines 816-827: the chain run when the backspace key is down. -/
def handleBackspace (s : State) : State :=
  if s.inputName.focused && !s.inputName.text.isEmpty then
    { s with inputName := { s.inputName with text := s.inputName.text.dropLast } }
  else if s.inputRoll.focused && !s.inputRoll.text.isEmpty then
    { s with inputRoll := { s.inputRoll with text := s.inputRoll.text.dropLast } }
  else if s.inputGrade.focused && !s.inputGrade.text.isEmpty then
    { s with inputGrade := { s.inputGrade with text := s.inputGrade.text.dropLast } }
  else if s.inputSearch.focused && !s.inputSearch.text.isEmpty then
    { s with inputSearch := { s.inputSearch with text := s.inputSearch.text.dropLast } }
  else if s.inputDepartment.focused && !s.inputDepartment.text.isEmpty then
    { s with inputDepartment := { s.inputDepartment with text := s.inputDepartment.text.dropLast } }
  else if s.inputCGPA.focused && !s.inputCGPA.text.isEmpty then
    { s with inputCGPA := { s.inputCGPA with text := s.inputCGPA.text.dropLast } }
  else s

/-- Lines 843-849: the visible list, each pointer kept with its target. -/
def visibleList (s : State) : List (Nat × Student) :=
  if !s.inputSearch.text.isEmpty then s.manager.search s.inputSearch.text
  else s.manager.students.enum

/-- The local `ystart` of the row loops. -/
def ystart : ℚ := listTop - 50 - scrollOffset

/-- The local `itemY` of the row loops at index `idx`. -/
def itemY (idx : Nat) : ℚ := ystart - (idx : ℚ) * 24

/-- The two nested tests of the row loops at index `idx`. -/
def rowHit (mx my : ℚ) (idx : Nat) : Bool :=
  (decide (itemY idx > 30) && decide (itemY idx < listTop - 30)) &&
    pointInRect mx my (listX + 5) (itemY idx - 18) (listW - 10) 20

/-- The row loops of lines 857-871 and 880-904: the first element of the
visible list, counted from `idx`, whose row is hit. -/
def hitRow {α : Type} (mx my : ℚ) : List α → Nat → Option α
  | [], _ => none
  | p :: rest, idx => if rowHit mx my idx then some p else hitRow mx my rest (idx + 1)

/-- Lines 852-872: the row handler of a click. -/
def rowClick (currentTime mx my : ℚ) (visible : List (Nat × Student)) (s : State) : State :=
  match hitRow mx my visible 0 with
  | some p => { s with detailsPanel := s.detailsPanel.show p.1 currentTime }
  | none => s

/-- Lines 889-899: the toggle of a roll in `selectedRolls`. -/
def toggleRoll (roll : Int) (sel : List Int) : List Int :=
  if roll ∈ sel then sel.erase roll else sel ++ [roll]

/-- Lines 875-905: the row handler of a double click. -/
def rowDoubleClick (mx my : ℚ) (visible : List (Nat × Student)) (s : State) : State :=
  match hitRow mx my visible 0 with
  | some p => { s with selectedRolls := toggleRoll p.2.roll s.selectedRolls }
  | none => s

/-- The local `mx`. -/
def Input.mx (inp : Input) : ℚ := inp.mouseX

/-- The local `my`: the pointer height from the bottom of the window. -/
def Input.my (inp : Input) : ℚ := SCR_H - inp.mouseY

/-- The local `doubleClick`, as lines 545-558 leave it for the frame. -/
def doubleClickFlag (inp : Input) (s : State) : Bool :=
  (classifyPress inp.mouseJustPressed inp.currentTime s.lastClickTime).2.1

/-- The local `click`, as the panel test of lines 561-582 leaves it. -/
def clickFlag (inp : Input) (s : State) : Bool :=
  (classifyPress inp.mouseJustPressed inp.currentTime s.lastClickTime).1 &&
    !panelConsumes s.detailsPanel inp.mx inp.my

/-- Lines 545-582: the update of `lastClickTime` and the close test of the panel. -/
def pressStage (inp : Input) (s : State) : State :=
  let cl := classifyPress inp.mouseJustPressed inp.currentTime s.lastClickTime
  let s1 := { s with lastClickTime := cl.2.2 }
  if cl.1 && panelConsumes s1.detailsPanel inp.mx inp.my then
    { s1 with detailsPanel := s1.detailsPanel.hide }
  else s1

/-- Lines 545-785: the state after the click handling. -/
def clickStage (stof : List Char → Option ℚ) (inp : Input) (s : State) : State :=
  let s2 := pressStage inp s
  if clickFlag inp s then handleClick stof inp.currentTime inp.fileStudents inp.mx inp.my s2 else s2

/-- Lines 545-829: the state after the typed characters and the backspace key. -/
def keyStage (stof : List Char → Option ℚ) (inp : Input) (s : State) : State :=
  let s4 := keyboardInput inp.textInputBuffer (clickStage stof inp s)
  if inp.keyBackspace then handleBackspace s4 else s4

/-- Lines 843-905: the visible list and the two row handlers. -/
def rowStage (inp : Input) (click doubleClick : Bool) (s6 : State) : State :=
  let visible := visibleList s6
  let s7 := if click then rowClick inp.currentTime inp.mx inp.my visible s6 else s6
  if doubleClick then rowDoubleClick inp.mx inp.my visible s7 else s7

/-- Lines 830-841 when the loop goes on: the Escape key hides the panel. -/
def escapeStage (inp : Input) (s5 : State) : State :=
  if inp.keyEscape then { s5 with detailsPanel := s5.detailsPanel.hide } else s5

/-- What one iteration of the loop leaves: the state, and whether the loop was
left by `break`. -/
structure FrameResult where
  state : State
  quit : Bool

/-- One iteration of the loop of `main`, lines 538-905 (rendering reads the
state and changes none of it). -/
def frame (stof : List Char → Option ℚ) (inp : Input) (s : State) : FrameResult :=
  let s5 := keyStage stof inp s
  if inp.keyEscape && !s5.detailsPanel.visible then
    { state := s5, quit := true }
  else
    { state := rowStage inp (clickFlag inp s) (doubleClickFlag inp s) (escapeStage inp s5)
      quit := false }

/-- The states the loop can be in at the top of an iteration. -/
inductive Reachable (stof : List Char → Option ℚ) : State → Prop where
  | init (loaded : List Student) : Reachable stof (initState loaded)
  | step (inp : Input) (s : State) :
      Reachable stof s → (frame stof inp s).quit = false → Reachable stof (frame stof inp s).state

/-! ## Observations on a state -/

/-- The six `focused` flags, in the order Name, Roll, Grade, Search,
Department, CGPA. -/
def focusFlags (s : State) : List Bool :=
  [s.inputName.focused, s.inputRoll.focused, s.inputGrade.focused,
   s.inputSearch.focused, s.inputDepartment.focused, s.inputCGPA.focused]

/-- The six values of `pointInRect` that a click at `(mx, my)` assigns to the
flags, in the same order. -/
def focusHits (mx my : ℚ) : List Bool :=
  [inputNameRect.hit mx my, inputRollRect.hit mx my, inputGradeRect.hit mx my,
   inputSearchRect.hit mx my, inputDepartmentRect.hit mx my, inputCGPARect.hit mx my]

/-- The texts of the six input boxes, in the same order. -/
def fieldTexts (s : State) : List (List Char) :=
  [s.inputName.text, s.inputRoll.text, s.inputGrade.text,
   s.inputSearch.text, s.inputDepartment.text, s.inputCGPA.text]

/-- A point in one of the five column-header rectangles. -/
def inHeader (mx my : ℚ) : Bool :=
  headerCGPARect.hit mx my || headerGradeRect.hit mx my || headerDepartmentRect.hit mx my ||
    headerNameRect.hit mx my || headerRollRect.hit mx my

/-- A point in one of the five button rectangles. -/
def inButton (mx my : ℚ) : Bool :=
  btnAddRect.hit mx my || btnEditRect.hit mx my || btnDeleteRect.hit mx my ||
    btnSaveRect.hit mx my || btnLoadRect.hit mx my

/-- The order of two records in a column: numeric for the roll and the CGPA,
lexicographic for the three texts. -/
def colLe (c : SortColumn) (a b : Student) : Prop :=
  match c with
  | .ROLL => a.roll ≤ b.roll
  | .NAME => a.name ≤ b.name
  | .GRADE => a.grade ≤ b.grade
  | .DEPARTMENT => a.department ≤ b.department
  | .CGPA => a.cgpa ≤ b.cgpa
  | .NONE => True

/-! ## Concrete frames -/

/-- A record used in the concrete frames. -/
def ada : Student := ⟨"Ada".toList, 7, "A".toList, "CS".toList, 3⟩

/-- A second record. -/
def bob : Student := ⟨"Bob".toList, 5, "B".toList, "EE".toList, 7 / 2⟩

/-- A third record. -/
def cy : Student := ⟨"Cy".toList, 9, "C".toList, "ME".toList, 2⟩

/-- The frame of the first press of a session, `0.2` after `glfwInit`. -/
def firstPressInput : Input :=
  { currentTime := 1 / 5, mouseX := 500, mouseY := 400, mouseJustPressed := true
    textInputBuffer := [], keyBackspace := false, keyEscape := false, fileStudents := [] }

/-- A press at time `1.1` at window position `(100, 280)`, that is `my = 420`,
inside the rectangle of list row `0` (`25 ≤ mx ≤ 975`, `407 ≤ my ≤ 427`). -/
def rowPress : Input :=
  { currentTime := 11 / 10, mouseX := 100, mouseY := 280, mouseJustPressed := true
    textInputBuffer := [], keyBackspace := false, keyEscape := false, fileStudents := [] }

/-- One record in the store, the panel hidden, the previous press at time `1`. -/
def rowState : State := { initState [ada] with lastClickTime := 1 }

/-- The state `rowState` with the details panel open on the record. -/
def panelOpenState : State :=
  { rowState with detailsPanel := { visible := true, currentStudent := some 0, animationStart := 1 } }

/-- A press at time `5` at window position `(50, 40)`, that is `my = 660`,
inside the Add button (`20 ≤ mx ≤ 120`, `640 ≤ my ≤ 680`). -/
def addPress : Input :=
  { currentTime := 5, mouseX := 50, mouseY := 40, mouseJustPressed := true
    textInputBuffer := [], keyBackspace := false, keyEscape := false, fileStudents := [] }

/-- A press at time `2` at window position `(100, 100)`, that is `my = 600`,
inside the Name box (`20 ≤ mx ≤ 220`, `590 ≤ my ≤ 625`). -/
def namePress : Input :=
  { currentTime := 2, mouseX := 100, mouseY := 100, mouseJustPressed := true
    textInputBuffer := [], keyBackspace := false, keyEscape := false, fileStudents := [] }

/-- A press at time `3` at window position `(250, 100)`, inside the Roll box. -/
def rollPress : Input :=
  { currentTime := 3, mouseX := 250, mouseY := 100, mouseJustPressed := true
    textInputBuffer := [], keyBackspace := false, keyEscape := false, fileStudents := [] }

/-- The initial state with an empty store and the Name box focused. -/
def nameFocused : State := { initState [] with inputName := ⟨[], true⟩ }

/-- An empty store with the texts "Ada", "1" and "4.5" in Name, Roll and CGPA. -/
def addReady : State :=
  { initState [] with
    inputName := ⟨"Ada".toList, false⟩
    inputRoll := ⟨"1".toList, false⟩
    inputCGPA := ⟨"4.5".toList, false⟩ }

/-- One record in the store with the details panel open on it, and the texts
"Bob" and "2" in Name and Roll. -/
def addReadyPanelOpen : State :=
  { panelOpenState with
    inputName := ⟨"Bob".toList, false⟩
    inputRoll := ⟨"2".toList, false⟩ }

/-- A store of three records, not yet sorted. -/
def threeRecords : StudentManager :=
  { students := [ada, bob, cy], sortState := { column := .NONE, ascending := true } }

/-! ## Definitions for the store, search, sorting and animation properties -/

/-- The method `MessagePopup::getAlpha`. -/
def MessagePopup.getAlpha (p : MessagePopup) (currentTime : ℚ) : ℚ :=
  if !p.visible then 0
  else
    let elapsed := currentTime - p.showTime
    if elapsed > p.duration then 0
    else if elapsed > p.duration - 1 / 2 then (p.duration - elapsed) / (1 / 2)
    else 1

/-- The method `DetailsPanel::getSlideProgress`. -/
def DetailsPanel.getSlideProgress (p : DetailsPanel) (currentTime : ℚ) : ℚ :=
  if !p.visible then 0
  else
    let elapsed := currentTime - p.animationStart
    if elapsed ≥ p.animationDuration then 1
    else
      let t := elapsed / p.animationDuration
      t * t * (3 - 2 * t)

/-- The curve `3u² - 2u³` that the specification names smoothstep. -/
def smoothstep (u : ℚ) : ℚ := 3 * u ^ 2 - 2 * u ^ 3

/-- The specification's `clamp(u, 0, 1)`. -/
def clamp01 (u : ℚ) : ℚ := max 0 (min u 1)

/-- An ASCII capital letter, `A` to `Z`. -/
def isAsciiUpper (c : Char) : Bool := decide (65 ≤ c.toNat) && decide (c.toNat ≤ 90)

/-- The specification's "lower-cased" character: a capital ASCII letter is
moved 32 codes up, to its small letter; every other character stays. -/
def asciiLowerCase (c : Char) : Char :=
  if isAsciiUpper c then Char.ofNat (c.toNat + 32) else c

/-- Two characters that are equal "ignoring ASCII letter case": the same
character, or a capital ASCII letter and its small letter, 32 codes above. -/
def sameLetterIgnoringCase (c d : Char) : Bool :=
  c == d || (isAsciiUpper c && d.toNat == c.toNat + 32) ||
    (isAsciiUpper d && c.toNat == d.toNat + 32)

/-- The specification's words "equal ignoring ASCII letter case": the same
length, and character by character the same letter up to case. -/
def equalIgnoringCase : List Char → List Char → Bool
  | [], [] => true
  | c :: cs, d :: ds => sameLetterIgnoringCase c d && equalIgnoringCase cs ds
  | [], _ :: _ => false
  | _ :: _, [] => false

/-- The specification's words "`hay` contains `q` as a substring ignoring ASCII
letter case": at some position of `hay` the next `q.length` characters equal
`q` up to case. -/
def containsIgnoringCase (hay q : List Char) : Bool :=
  hay.tails.any (fun t => equalIgnoringCase (t.take q.length) q)

/-- The specification's words "`hay` contains `q` as a substring". -/
def containsSubstr (hay q : List Char) : Bool :=
  hay.tails.any (fun t => t.take q.length == q)

/-- The decimal digits of a natural number, most significant first, written
without the source's `to_string`: `fuel` bounds the number of digits. -/
def specDecimalDigits : Nat → Nat → List Char
  | 0, _ => []
  | fuel + 1, n =>
    if n < 10 then [Char.ofNat (48 + n)]
    else specDecimalDigits fuel (n / 10) ++ [Char.ofNat (48 + n % 10)]

/-- The specification's "decimal string form of id": a minus sign for a
negative id, then the decimal digits of its absolute value. -/
def specDecimal (n : Int) : List Char :=
  if n < 0 then '-' :: specDecimalDigits (n.natAbs + 1) n.natAbs
  else specDecimalDigits (n.natAbs + 1) n.natAbs

/-- The filter of the specification: the name contains the query ignoring
case, or the decimal string of the roll contains the lower-cased query. -/
def specSearchMatch (q : List Char) (st : Student) : Bool :=
  containsIgnoringCase st.name q || containsSubstr (specDecimal st.roll) (q.map asciiLowerCase)

/-- Two records have the same key in a column (every record ties in `NONE`). -/
def colKeyEq (c : SortColumn) (a b : Student) : Prop :=
  match c with
  | .ROLL => a.roll = b.roll
  | .NAME => a.name = b.name
  | .GRADE => a.grade = b.grade
  | .DEPARTMENT => a.department = b.department
  | .CGPA => a.cgpa = b.cgpa
  | .NONE => True

/-- The shape the specification gives the roll text: decimal digits, with at
most one minus sign, at position 0. -/
def leadingMinusDigits (text : List Char) : Bool :=
  match text with
  | c :: r => if c = '-' then r.all isDigitC else (c :: r).all isDigitC
  | [] => true

/-- A record with roll 8. -/
def dee : Student := ⟨"Dee".toList, 8, "B".toList, "CE".toList, 3⟩

/-- A record with the roll of `ada` and other fields of its own. -/
def eve : Student := ⟨"Eve".toList, 7, "D".toList, "BA".toList, 1⟩

/-- A press at time `5` at window position `(300, 40)`, that is `my = 660`,
inside the Delete button (`260 ≤ mx ≤ 360`, `640 ≤ my ≤ 680`). -/
def deletePress : Input :=
  { currentTime := 5, mouseX := 300, mouseY := 40, mouseJustPressed := true
    textInputBuffer := [], keyBackspace := false, keyEscape := false, fileStudents := [] }

/-- A frame without a press in which the characters "1-2" were typed. -/
def typeInput : Input :=
  { currentTime := 4, mouseX := 250, mouseY := 100, mouseJustPressed := false
    textInputBuffer := "1-2".toList, keyBackspace := false, keyEscape := false
    fileStudents := [] }

/-- A store with the rolls 5, 8, 9 and the selection `[5, 9]`, the panel hidden. -/
def deleteReady : State := { initState [bob, dee, cy] with selectedRolls := [5, 9] }

/-- The state `deleteReady` with the details panel open on the first record. -/
def deleteReadyPanelOpen : State :=
  { deleteReady with detailsPanel := { visible := true, currentStudent := some 0, animationStart := 1 } }

/-- One record with roll 7 in the store, an empty selection, the panel hidden,
and the text "99" in Roll. -/
def deleteUnknown : State := { initState [ada] with inputRoll := ⟨"99".toList, false⟩ }

/-- A visible details panel whose animation started at time `1`. -/
def slidePanel : DetailsPanel := { visible := true, currentStudent := some 0, animationStart := 1 }

/-- A store in which two records share the roll 7. -/
def twinStore : StudentManager :=
  { students := [ada, bob, eve], sortState := { column := .NONE, ascending := true } }

/-- Every character of a text is a decimal digit or a minus sign. -/
def digitsAndMinus (text : List Char) : Prop := ∀ c ∈ text, isDigitC c = true ∨ c = '-'

/-- The store `[ada, bob, cy]` with the text "AD" in Search. -/
def searchByName : State := { initState [ada, bob, cy] with inputSearch := ⟨"AD".toList, false⟩ }

/-- The store `[ada, bob, cy]` with the text "9" in Search. -/
def searchByRoll : State := { initState [ada, bob, cy] with inputSearch := ⟨"9".toList, false⟩ }

/-- The store `[ada, bob, cy]` with the text "b" in Search. -/
def searchSmallLetter : State :=
  { initState [ada, bob, cy] with inputSearch := ⟨"b".toList, false⟩ }

/-- The state `rowState` with the roll of its record selected. -/
def rowSelectedState : State := { rowState with selectedRolls := [7] }

/-- A press at time `1.1` at window position `(900, 280)`, that is `mx = 900`,
`my = 420`: inside list row `0`, right of the panel edge and off the close
button. -/
def rowPressRight : Input :=
  { currentTime := 11 / 10, mouseX := 900, mouseY := 280, mouseJustPressed := true
    textInputBuffer := [], keyBackspace := false, keyEscape := false, fileStudents := [] }

/-- The state `panelOpenState` with the roll of its record selected. -/
def panelOpenSelected : State := { panelOpenState with selectedRolls := [7] }

/-! # Theorems -/

/-! ### What each stage leaves alone -/

@[simp] theorem assignFocus_lastClickTime (mx my : ℚ) (s : State) :
    (assignFocus mx my s).lastClickTime = s.lastClickTime := by
  rfl

@[simp] theorem assignFocus_fieldTexts (mx my : ℚ) (s : State) :
    fieldTexts (assignFocus mx my s) = fieldTexts s := by
  rfl

@[simp] theorem assignFocus_manager (mx my : ℚ) (s : State) :
    (assignFocus mx my s).manager = s.manager := by
  rfl

@[simp] theorem assignFocus_selectedRolls (mx my : ℚ) (s : State) :
    (assignFocus mx my s).selectedRolls = s.selectedRolls := by
  rfl

@[simp] theorem assignFocus_messagePopup (mx my : ℚ) (s : State) :
    (assignFocus mx my s).messagePopup = s.messagePopup := by
  rfl

@[simp] theorem assignFocus_detailsPanel (mx my : ℚ) (s : State) :
    (assignFocus mx my s).detailsPanel = s.detailsPanel := by
  rfl

@[simp] theorem assignFocus_saveLog (mx my : ℚ) (s : State) :
    (assignFocus mx my s).saveLog = s.saveLog := by
  rfl

@[simp] theorem headerClicks_lastClickTime (mx my : ℚ) (s : State) :
    (headerClicks mx my s).lastClickTime = s.lastClickTime := by
  unfold headerClicks; split <;> rfl

@[simp] theorem headerClicks_focusFlags (mx my : ℚ) (s : State) :
    focusFlags (headerClicks mx my s) = focusFlags s := by
  unfold headerClicks; split <;> rfl

@[simp] theorem headerClicks_fieldTexts (mx my : ℚ) (s : State) :
    fieldTexts (headerClicks mx my s) = fieldTexts s := by
  unfold headerClicks; split <;> rfl

@[simp] theorem headerClicks_selectedRolls (mx my : ℚ) (s : State) :
    (headerClicks mx my s).selectedRolls = s.selectedRolls := by
  unfold headerClicks; split <;> rfl

@[simp] theorem headerClicks_messagePopup (mx my : ℚ) (s : State) :
    (headerClicks mx my s).messagePopup = s.messagePopup := by
  unfold headerClicks; split <;> rfl

@[simp] theorem headerClicks_detailsPanel (mx my : ℚ) (s : State) :
    (headerClicks mx my s).detailsPanel = s.detailsPanel := by
  unfold headerClicks; split <;> rfl

@[simp] theorem headerClicks_saveLog (mx my : ℚ) (s : State) :
    (headerClicks mx my s).saveLog = s.saveLog := by
  unfold headerClicks; split <;> rfl

@[simp] theorem addHandler_lastClickTime (stof : List Char → Option ℚ) (t : ℚ) (s : State) :
    (addHandler stof t s).lastClickTime = s.lastClickTime := by
  unfold addHandler; simp only []; split <;> rfl

@[simp] theorem addHandler_focusFlags (stof : List Char → Option ℚ) (t : ℚ) (s : State) :
    focusFlags (addHandler stof t s) = focusFlags s := by
  unfold addHandler; simp only []; split <;> rfl

@[simp] theorem addHandler_selectedRolls (stof : List Char → Option ℚ) (t : ℚ) (s : State) :
    (addHandler stof t s).selectedRolls = s.selectedRolls := by
  unfold addHandler; simp only []; split <;> rfl

@[simp] theorem addHandler_detailsPanel (stof : List Char → Option ℚ) (t : ℚ) (s : State) :
    (addHandler stof t s).detailsPanel = s.detailsPanel := by
  unfold addHandler; simp only []; split <;> rfl

@[simp] theorem addHandler_saveLog (stof : List Char → Option ℚ) (t : ℚ) (s : State) :
    (addHandler stof t s).saveLog = s.saveLog := by
  unfold addHandler; simp only []; split <;> rfl

@[simp] theorem editHandler_lastClickTime (stof : List Char → Option ℚ) (t : ℚ) (s : State) :
    (editHandler stof t s).lastClickTime = s.lastClickTime := by
  unfold editHandler; simp only []; repeat' split
  all_goals rfl

@[simp] theorem editHandler_focusFlags (stof : List Char → Option ℚ) (t : ℚ) (s : State) :
    focusFlags (editHandler stof t s) = focusFlags s := by
  unfold editHandler; simp only []; repeat' split
  all_goals rfl

@[simp] theorem editHandler_fieldTexts (stof : List Char → Option ℚ) (t : ℚ) (s : State) :
    fieldTexts (editHandler stof t s) = fieldTexts s := by
  unfold editHandler; simp only []; repeat' split
  all_goals rfl

@[simp] theorem editHandler_selectedRolls (stof : List Char → Option ℚ) (t : ℚ) (s : State) :
    (editHandler stof t s).selectedRolls = s.selectedRolls := by
  unfold editHandler; simp only []; repeat' split
  all_goals rfl

@[simp] theorem editHandler_detailsPanel (stof : List Char → Option ℚ) (t : ℚ) (s : State) :
    (editHandler stof t s).detailsPanel = s.detailsPanel := by
  unfold editHandler; simp only []; repeat' split
  all_goals rfl

@[simp] theorem editHandler_saveLog (stof : List Char → Option ℚ) (t : ℚ) (s : State) :
    (editHandler stof t s).saveLog = s.saveLog := by
  unfold editHandler; simp only []; repeat' split
  all_goals rfl

@[simp] theorem deleteHandler_lastClickTime (t : ℚ) (s : State) :
    (deleteHandler t s).lastClickTime = s.lastClickTime := by
  unfold deleteHandler; simp only []; repeat' split
  all_goals rfl

@[simp] theorem deleteHandler_focusFlags (t : ℚ) (s : State) :
    focusFlags (deleteHandler t s) = focusFlags s := by
  unfold deleteHandler; simp only []; repeat' split
  all_goals rfl

@[simp] theorem deleteHandler_fieldTexts (t : ℚ) (s : State) :
    fieldTexts (deleteHandler t s) = fieldTexts s := by
  unfold deleteHandler; simp only []; repeat' split
  all_goals rfl

@[simp] theorem deleteHandler_detailsPanel (t : ℚ) (s : State) :
    (deleteHandler t s).detailsPanel = s.detailsPanel := by
  unfold deleteHandler; simp only []; repeat' split
  all_goals rfl

@[simp] theorem saveHandler_lastClickTime (t : ℚ) (s : State) :
    (saveHandler t s).lastClickTime = s.lastClickTime := by
  rfl

@[simp] theorem saveHandler_focusFlags (t : ℚ) (s : State) :
    focusFlags (saveHandler t s) = focusFlags s := by
  rfl

@[simp] theorem saveHandler_fieldTexts (t : ℚ) (s : State) :
    fieldTexts (saveHandler t s) = fieldTexts s := by
  rfl

@[simp] theorem saveHandler_manager (t : ℚ) (s : State) :
    (saveHandler t s).manager = s.manager := by
  rfl

@[simp] theorem saveHandler_selectedRolls (t : ℚ) (s : State) :
    (saveHandler t s).selectedRolls = s.selectedRolls := by
  rfl

@[simp] theorem saveHandler_detailsPanel (t : ℚ) (s : State) :
    (saveHandler t s).detailsPanel = s.detailsPanel := by
  rfl

@[simp] theorem loadHandler_lastClickTime (t : ℚ) (fs : List Student) (s : State) :
    (loadHandler t fs s).lastClickTime = s.lastClickTime := by
  rfl

@[simp] theorem loadHandler_focusFlags (t : ℚ) (fs : List Student) (s : State) :
    focusFlags (loadHandler t fs s) = focusFlags s := by
  rfl

@[simp] theorem loadHandler_fieldTexts (t : ℚ) (fs : List Student) (s : State) :
    fieldTexts (loadHandler t fs s) = fieldTexts s := by
  rfl

@[simp] theorem loadHandler_selectedRolls (t : ℚ) (fs : List Student) (s : State) :
    (loadHandler t fs s).selectedRolls = s.selectedRolls := by
  rfl

@[simp] theorem loadHandler_detailsPanel (t : ℚ) (fs : List Student) (s : State) :
    (loadHandler t fs s).detailsPanel = s.detailsPanel := by
  rfl

@[simp] theorem loadHandler_saveLog (t : ℚ) (fs : List Student) (s : State) :
    (loadHandler t fs s).saveLog = s.saveLog := by
  rfl

@[simp] theorem keyboardInput_lastClickTime (buf : List Char) (s : State) :
    (keyboardInput buf s).lastClickTime = s.lastClickTime := by
  unfold keyboardInput; split_ifs <;> rfl

@[simp] theorem keyboardInput_focusFlags (buf : List Char) (s : State) :
    focusFlags (keyboardInput buf s) = focusFlags s := by
  unfold keyboardInput; split_ifs <;> rfl

@[simp] theorem keyboardInput_manager (buf : List Char) (s : State) :
    (keyboardInput buf s).manager = s.manager := by
  unfold keyboardInput; split_ifs <;> rfl

@[simp] theorem keyboardInput_selectedRolls (buf : List Char) (s : State) :
    (keyboardInput buf s).selectedRolls = s.selectedRolls := by
  unfold keyboardInput; split_ifs <;> rfl

@[simp] theorem keyboardInput_messagePopup (buf : List Char) (s : State) :
    (keyboardInput buf s).messagePopup = s.messagePopup := by
  unfold keyboardInput; split_ifs <;> rfl

@[simp] theorem keyboardInput_detailsPanel (buf : List Char) (s : State) :
    (keyboardInput buf s).detailsPanel = s.detailsPanel := by
  unfold keyboardInput; split_ifs <;> rfl

@[simp] theorem keyboardInput_saveLog (buf : List Char) (s : State) :
    (keyboardInput buf s).saveLog = s.saveLog := by
  unfold keyboardInput; split_ifs <;> rfl

@[simp] theorem handleBackspace_lastClickTime (s : State) :
    (handleBackspace s).lastClickTime = s.lastClickTime := by
  unfold handleBackspace; split_ifs <;> rfl

@[simp] theorem handleBackspace_focusFlags (s : State) :
    focusFlags (handleBackspace s) = focusFlags s := by
  unfold handleBackspace; split_ifs <;> rfl

@[simp] theorem handleBackspace_manager (s : State) :
    (handleBackspace s).manager = s.manager := by
  unfold handleBackspace; split_ifs <;> rfl

@[simp] theorem handleBackspace_selectedRolls (s : State) :
    (handleBackspace s).selectedRolls = s.selectedRolls := by
  unfold handleBackspace; split_ifs <;> rfl

@[simp] theorem handleBackspace_messagePopup (s : State) :
    (handleBackspace s).messagePopup = s.messagePopup := by
  unfold handleBackspace; split_ifs <;> rfl

@[simp] theorem handleBackspace_detailsPanel (s : State) :
    (handleBackspace s).detailsPanel = s.detailsPanel := by
  unfold handleBackspace; split_ifs <;> rfl

@[simp] theorem handleBackspace_saveLog (s : State) :
    (handleBackspace s).saveLog = s.saveLog := by
  unfold handleBackspace; split_ifs <;> rfl

@[simp] theorem rowClick_lastClickTime (t mx my : ℚ) (v : List (Nat × Student)) (s : State) :
    (rowClick t mx my v s).lastClickTime = s.lastClickTime := by
  unfold rowClick; split <;> rfl

@[simp] theorem rowClick_focusFlags (t mx my : ℚ) (v : List (Nat × Student)) (s : State) :
    focusFlags (rowClick t mx my v s) = focusFlags s := by
  unfold rowClick; split <;> rfl

@[simp] theorem rowClick_fieldTexts (t mx my : ℚ) (v : List (Nat × Student)) (s : State) :
    fieldTexts (rowClick t mx my v s) = fieldTexts s := by
  unfold rowClick; split <;> rfl

@[simp] theorem rowClick_manager (t mx my : ℚ) (v : List (Nat × Student)) (s : State) :
    (rowClick t mx my v s).manager = s.manager := by
  unfold rowClick; split <;> rfl

@[simp] theorem rowClick_selectedRolls (t mx my : ℚ) (v : List (Nat × Student)) (s : State) :
    (rowClick t mx my v s).selectedRolls = s.selectedRolls := by
  unfold rowClick; split <;> rfl

@[simp] theorem rowClick_messagePopup (t mx my : ℚ) (v : List (Nat × Student)) (s : State) :
    (rowClick t mx my v s).messagePopup = s.messagePopup := by
  unfold rowClick; split <;> rfl

@[simp] theorem rowClick_saveLog (t mx my : ℚ) (v : List (Nat × Student)) (s : State) :
    (rowClick t mx my v s).saveLog = s.saveLog := by
  unfold rowClick; split <;> rfl

@[simp] theorem rowDoubleClick_lastClickTime (mx my : ℚ) (v : List (Nat × Student)) (s : State) :
    (rowDoubleClick mx my v s).lastClickTime = s.lastClickTime := by
  unfold rowDoubleClick; split <;> rfl

@[simp] theorem rowDoubleClick_focusFlags (mx my : ℚ) (v : List (Nat × Student)) (s : State) :
    focusFlags (rowDoubleClick mx my v s) = focusFlags s := by
  unfold rowDoubleClick; split <;> rfl

@[simp] theorem rowDoubleClick_fieldTexts (mx my : ℚ) (v : List (Nat × Student)) (s : State) :
    fieldTexts (rowDoubleClick mx my v s) = fieldTexts s := by
  unfold rowDoubleClick; split <;> rfl

@[simp] theorem rowDoubleClick_manager (mx my : ℚ) (v : List (Nat × Student)) (s : State) :
    (rowDoubleClick mx my v s).manager = s.manager := by
  unfold rowDoubleClick; split <;> rfl

@[simp] theorem rowDoubleClick_messagePopup (mx my : ℚ) (v : List (Nat × Student)) (s : State) :
    (rowDoubleClick mx my v s).messagePopup = s.messagePopup := by
  unfold rowDoubleClick; split <;> rfl

@[simp] theorem rowDoubleClick_detailsPanel (mx my : ℚ) (v : List (Nat × Student)) (s : State) :
    (rowDoubleClick mx my v s).detailsPanel = s.detailsPanel := by
  unfold rowDoubleClick; split <;> rfl

@[simp] theorem rowDoubleClick_saveLog (mx my : ℚ) (v : List (Nat × Student)) (s : State) :
    (rowDoubleClick mx my v s).saveLog = s.saveLog := by
  unfold rowDoubleClick; split <;> rfl

@[simp] theorem escapeStage_lastClickTime (inp : Input) (s : State) :
    (escapeStage inp s).lastClickTime = s.lastClickTime := by
  unfold escapeStage; split <;> rfl

@[simp] theorem escapeStage_focusFlags (inp : Input) (s : State) :
    focusFlags (escapeStage inp s) = focusFlags s := by
  unfold escapeStage; split <;> rfl

@[simp] theorem escapeStage_fieldTexts (inp : Input) (s : State) :
    fieldTexts (escapeStage inp s) = fieldTexts s := by
  unfold escapeStage; split <;> rfl

@[simp] theorem escapeStage_manager (inp : Input) (s : State) :
    (escapeStage inp s).manager = s.manager := by
  unfold escapeStage; split <;> rfl

@[simp] theorem escapeStage_selectedRolls (inp : Input) (s : State) :
    (escapeStage inp s).selectedRolls = s.selectedRolls := by
  unfold escapeStage; split <;> rfl

@[simp] theorem escapeStage_messagePopup (inp : Input) (s : State) :
    (escapeStage inp s).messagePopup = s.messagePopup := by
  unfold escapeStage; split <;> rfl

@[simp] theorem escapeStage_saveLog (inp : Input) (s : State) :
    (escapeStage inp s).saveLog = s.saveLog := by
  unfold escapeStage; split <;> rfl

@[simp] theorem pressStage_focusFlags (inp : Input) (s : State) :
    focusFlags (pressStage inp s) = focusFlags s := by
  unfold pressStage; simp only []; split <;> rfl

@[simp] theorem pressStage_fieldTexts (inp : Input) (s : State) :
    fieldTexts (pressStage inp s) = fieldTexts s := by
  unfold pressStage; simp only []; split <;> rfl

@[simp] theorem pressStage_manager (inp : Input) (s : State) :
    (pressStage inp s).manager = s.manager := by
  unfold pressStage; simp only []; split <;> rfl

@[simp] theorem pressStage_selectedRolls (inp : Input) (s : State) :
    (pressStage inp s).selectedRolls = s.selectedRolls := by
  unfold pressStage; simp only []; split <;> rfl

@[simp] theorem pressStage_messagePopup (inp : Input) (s : State) :
    (pressStage inp s).messagePopup = s.messagePopup := by
  unfold pressStage; simp only []; split <;> rfl

@[simp] theorem pressStage_saveLog (inp : Input) (s : State) :
    (pressStage inp s).saveLog = s.saveLog := by
  unfold pressStage; simp only []; split <;> rfl

/-! ### The composite stages -/

@[simp] theorem buttonClicks_lastClickTime (stof : List Char → Option ℚ) (t : ℚ)
    (fs : List Student) (mx my : ℚ) (s : State) :
    (buttonClicks stof t fs mx my s).lastClickTime = s.lastClickTime := by
  unfold buttonClicks; split_ifs <;> simp

@[simp] theorem buttonClicks_focusFlags (stof : List Char → Option ℚ) (t : ℚ)
    (fs : List Student) (mx my : ℚ) (s : State) :
    focusFlags (buttonClicks stof t fs mx my s) = focusFlags s := by
  unfold buttonClicks; split_ifs <;> simp

@[simp] theorem buttonClicks_detailsPanel (stof : List Char → Option ℚ) (t : ℚ)
    (fs : List Student) (mx my : ℚ) (s : State) :
    (buttonClicks stof t fs mx my s).detailsPanel = s.detailsPanel := by
  unfold buttonClicks; split_ifs <;> simp

@[simp] theorem handleClick_lastClickTime (stof : List Char → Option ℚ) (t : ℚ)
    (fs : List Student) (mx my : ℚ) (s : State) :
    (handleClick stof t fs mx my s).lastClickTime = s.lastClickTime := by
  simp [handleClick]

@[simp] theorem handleClick_detailsPanel (stof : List Char → Option ℚ) (t : ℚ)
    (fs : List Student) (mx my : ℚ) (s : State) :
    (handleClick stof t fs mx my s).detailsPanel = s.detailsPanel := by
  simp [handleClick]

theorem handleClick_focusFlags (stof : List Char → Option ℚ) (t : ℚ)
    (fs : List Student) (mx my : ℚ) (s : State) :
    focusFlags (handleClick stof t fs mx my s) = focusHits mx my := by
  simp [handleClick]; rfl

theorem pressStage_lastClickTime (inp : Input) (s : State) :
    (pressStage inp s).lastClickTime =
      (classifyPress inp.mouseJustPressed inp.currentTime s.lastClickTime).2.2 := by
  unfold pressStage; simp only []; split <;> rfl

theorem clickStage_lastClickTime (stof : List Char → Option ℚ) (inp : Input) (s : State) :
    (clickStage stof inp s).lastClickTime =
      (classifyPress inp.mouseJustPressed inp.currentTime s.lastClickTime).2.2 := by
  unfold clickStage; simp only []; split <;> simp [pressStage_lastClickTime]

theorem clickStage_focusFlags (stof : List Char → Option ℚ) (inp : Input) (s : State) :
    focusFlags (clickStage stof inp s) =
      if clickFlag inp s then focusHits inp.mx inp.my else focusFlags s := by
  unfold clickStage; simp only []; split <;> simp [handleClick_focusFlags]

theorem keyStage_lastClickTime (stof : List Char → Option ℚ) (inp : Input) (s : State) :
    (keyStage stof inp s).lastClickTime = (clickStage stof inp s).lastClickTime := by
  unfold keyStage; simp only []; split <;> simp

theorem keyStage_focusFlags (stof : List Char → Option ℚ) (inp : Input) (s : State) :
    focusFlags (keyStage stof inp s) = focusFlags (clickStage stof inp s) := by
  unfold keyStage; simp only []; split <;> simp

theorem keyStage_detailsPanel (stof : List Char → Option ℚ) (inp : Input) (s : State) :
    (keyStage stof inp s).detailsPanel = (pressStage inp s).detailsPanel := by
  unfold keyStage clickStage; simp only []; split <;> split <;> simp

@[simp] theorem rowStage_lastClickTime (inp : Input) (c d : Bool) (s : State) :
    (rowStage inp c d s).lastClickTime = s.lastClickTime := by
  unfold rowStage; cases c <;> cases d <;> simp

@[simp] theorem rowStage_focusFlags (inp : Input) (c d : Bool) (s : State) :
    focusFlags (rowStage inp c d s) = focusFlags s := by
  unfold rowStage; cases c <;> cases d <;> simp

@[simp] theorem rowStage_manager (inp : Input) (c d : Bool) (s : State) :
    (rowStage inp c d s).manager = s.manager := by
  unfold rowStage; cases c <;> cases d <;> simp

@[simp] theorem rowStage_fieldTexts (inp : Input) (c d : Bool) (s : State) :
    fieldTexts (rowStage inp c d s) = fieldTexts s := by
  unfold rowStage; cases c <;> cases d <;> simp

@[simp] theorem rowStage_messagePopup (inp : Input) (c d : Bool) (s : State) :
    (rowStage inp c d s).messagePopup = s.messagePopup := by
  unfold rowStage; cases c <;> cases d <;> simp

/-- The state a frame leaves is the key stage followed, unless the loop is
left, by the Escape and row stages. -/
theorem frame_state (stof : List Char → Option ℚ) (inp : Input) (s : State) :
    (frame stof inp s).state = keyStage stof inp s ∨
    (frame stof inp s).state =
      rowStage inp (clickFlag inp s) (doubleClickFlag inp s) (escapeStage inp (keyStage stof inp s)) := by
  unfold frame; simp only []; split
  · exact Or.inl rfl
  · exact Or.inr rfl

theorem frame_lastClickTime (stof : List Char → Option ℚ) (inp : Input) (s : State) :
    (frame stof inp s).state.lastClickTime =
      (classifyPress inp.mouseJustPressed inp.currentTime s.lastClickTime).2.2 := by
  rcases frame_state stof inp s with h | h <;> rw [h] <;>
    simp [keyStage_lastClickTime, clickStage_lastClickTime]

theorem frame_focusFlags (stof : List Char → Option ℚ) (inp : Input) (s : State) :
    focusFlags (frame stof inp s).state =
      if clickFlag inp s then focusHits inp.mx inp.my else focusFlags s := by
  rcases frame_state stof inp s with h | h <;> rw [h] <;>
    simp [keyStage_focusFlags, clickStage_focusFlags]

/-! ### Geometry -/

/-- A hit row lies below every header, button and input box. -/
theorem rowHit_bounds (mx my : ℚ) (idx : Nat) (h : rowHit mx my idx = true) :
    my < 430 ∧ 25 ≤ mx := by
  simp only [rowHit, pointInRect, itemY, ystart, listTop, listX, listW, scrollOffset, SCR_H, SCR_W,
    Bool.and_eq_true, decide_eq_true_eq] at h
  have hi : (0 : ℚ) ≤ (idx : ℚ) := Nat.cast_nonneg idx
  constructor <;> linarith [h.1.1, h.1.2, h.2.1.1.1, h.2.2]

theorem inButton_bounds (mx my : ℚ) (h : inButton mx my = true) : 640 ≤ my := by
  simp only [inButton, Rect.hit, pointInRect, btnAddRect, btnEditRect, btnDeleteRect, btnSaveRect,
    btnLoadRect, btnY, SCR_H, Bool.or_eq_true, Bool.and_eq_true, decide_eq_true_eq] at h
  rcases h with (((h | h) | h) | h) | h <;> linarith [h.1.2]

theorem inHeader_bounds (mx my : ℚ) (h : inHeader mx my = true) : 430 ≤ my ∧ my ≤ 455 := by
  simp only [inHeader, Rect.hit, pointInRect, headerCGPARect, headerGradeRect,
    headerDepartmentRect, headerNameRect, headerRollRect, headerX, headerY, headerH, listTop,
    listX, SCR_H, Bool.or_eq_true, Bool.and_eq_true, decide_eq_true_eq] at h
  rcases h with (((h | h) | h) | h) | h <;> constructor <;> linarith [h.1.2, h.2]

/-- A point below or above a rectangle is not in it. -/
theorem pointInRect_false (px py x y w h : ℚ) (hy : py < y ∨ y + h < py) :
    pointInRect px py x y w h = false := by
  by_contra hc
  simp only [pointInRect, Bool.not_eq_false, Bool.and_eq_true, decide_eq_true_eq] at hc
  rcases hy with hy | hy <;> linarith [hc.1.2, hc.2]

/-- No input box is hit outside the band `545 ≤ my ≤ 625`. -/
theorem focusHits_outside (mx my : ℚ) (h : my < 545 ∨ 625 < my) :
    focusHits mx my = [false, false, false, false, false, false] := by
  have hb : ∀ x y w : ℚ, (y = 590 ∨ y = 545) → pointInRect mx my x y w 35 = false := by
    intro x y w hy
    apply pointInRect_false
    rcases hy with hy | hy <;> rcases h with h | h <;> subst hy
    · left; linarith
    · right; linarith
    · left; linarith
    · right; linarith
  simp only [focusHits, Rect.hit, inputNameRect, inputRollRect, inputGradeRect,
    inputSearchRect, inputDepartmentRect, inputCGPARect, inputY1, inputY2, SCR_H]
  rw [hb _ _ _ (Or.inl (by norm_num)), hb _ _ _ (Or.inl (by norm_num)),
    hb _ _ _ (Or.inl (by norm_num)), hb _ _ _ (Or.inl (by norm_num)),
    hb _ _ _ (Or.inr (by norm_num)), hb _ _ _ (Or.inr (by norm_num))]

theorem headerColumn_none (mx my : ℚ) (h : my < 430 ∨ 455 < my) : headerColumn mx my = none := by
  have hh : inHeader mx my = false := by
    by_contra hc
    have := inHeader_bounds mx my (by simpa using hc)
    rcases h with h | h <;> linarith [this.1, this.2]
  simp only [inHeader, Bool.or_eq_false_iff] at hh
  simp [headerColumn, hh.1.1.1.1, hh.1.1.1.2, hh.1.1.2, hh.1.2, hh.2]

theorem inButton_false (mx my : ℚ) (h : my < 640) : inButton mx my = false := by
  by_contra hc
  have := inButton_bounds mx my (by simpa using hc)
  linarith

theorem rowHit_false (mx my : ℚ) (idx : Nat) (h : 430 ≤ my) : rowHit mx my idx = false := by
  by_contra hc
  have := rowHit_bounds mx my idx (by simpa using hc)
  linarith [this.1]

theorem hitRow_none {α : Type} (mx my : ℚ) (h : 430 ≤ my) (l : List α) (k : Nat) :
    hitRow mx my l k = none := by
  induction l generalizing k with
  | nil => rfl
  | cons p rest ih => simp [hitRow, rowHit_false mx my k h, ih]

theorem hitRow_some {α : Type} (mx my : ℚ) (l : List α) (k : Nat) (p : α)
    (h : hitRow mx my l k = some p) : ∃ idx, rowHit mx my idx = true := by
  induction l generalizing k with
  | nil => simp [hitRow] at h
  | cons q rest ih =>
    by_cases hk : rowHit mx my k = true
    · exact ⟨k, hk⟩
    · simp [hitRow, hk] at h
      exact ih _ h

/-! ### Clicks that miss the buttons, the headers or the rows -/

theorem buttonClicks_miss (stof : List Char → Option ℚ) (t : ℚ) (fs : List Student)
    (mx my : ℚ) (s : State) (h : inButton mx my = false) :
    buttonClicks stof t fs mx my s = s := by
  simp only [inButton, Bool.or_eq_false_iff] at h
  simp [buttonClicks, h.1.1.1.1, h.1.1.1.2, h.1.1.2, h.1.2, h.2]

theorem headerClicks_miss (mx my : ℚ) (s : State) (h : headerColumn mx my = none) :
    headerClicks mx my s = s := by
  simp [headerClicks, h]

theorem keyboardInput_noFocus (buf : List Char) (s : State)
    (h : focusFlags s = [false, false, false, false, false, false]) :
    keyboardInput buf s = s := by
  simp only [focusFlags, List.cons.injEq, and_true] at h
  simp [keyboardInput, h.1, h.2.1, h.2.2.1, h.2.2.2.1, h.2.2.2.2.1, h.2.2.2.2.2]

theorem handleBackspace_noFocus (s : State)
    (h : focusFlags s = [false, false, false, false, false, false]) :
    handleBackspace s = s := by
  simp only [focusFlags, List.cons.injEq, and_true] at h
  simp [handleBackspace, h.1, h.2.1, h.2.2.1, h.2.2.2.1, h.2.2.2.2.1, h.2.2.2.2.2]

theorem rowStage_none (inp : Input) (c d : Bool) (s : State) (h : 430 ≤ inp.my) :
    rowStage inp c d s = s := by
  cases c <;> cases d <;> simp [rowStage, rowClick, rowDoubleClick, hitRow_none _ _ h]

theorem frame_state_of_not_quit (stof : List Char → Option ℚ) (inp : Input) (s : State)
    (h : (frame stof inp s).quit = false) :
    (frame stof inp s).state =
      rowStage inp (clickFlag inp s) (doubleClickFlag inp s)
        (escapeStage inp (keyStage stof inp s)) := by
  unfold frame at h ⊢
  simp only [] at h ⊢
  split
  · rename_i hc
    rw [if_pos hc] at h
    simp at h
  · rfl

/-- Below the button row no handler of the click stage touches the selection. -/
theorem keyStage_selectedRolls (stof : List Char → Option ℚ) (inp : Input) (s : State)
    (h : inp.my < 640) : (keyStage stof inp s).selectedRolls = s.selectedRolls := by
  have hb := inButton_false inp.mx inp.my h
  unfold keyStage clickStage
  simp only []
  split <;> split <;> simp [handleClick, buttonClicks_miss _ _ _ _ _ _ hb]

theorem pressStage_detailsPanel (inp : Input) (s : State) :
    (pressStage inp s).detailsPanel =
      if inp.mouseJustPressed && panelConsumes s.detailsPanel inp.mx inp.my then
        s.detailsPanel.hide
      else s.detailsPanel := by
  unfold pressStage classifyPress
  cases inp.mouseJustPressed <;> cases h : panelConsumes s.detailsPanel inp.mx inp.my <;> simp [h]

theorem rowStage_hit (inp : Input) (c : Bool) (s : State) (p : Nat × Student)
    (h : hitRow inp.mx inp.my (visibleList s) 0 = some p) :
    (rowStage inp c true s).selectedRolls = toggleRoll p.2.roll s.selectedRolls ∧
    (rowStage inp c true s).detailsPanel =
      if c then s.detailsPanel.show p.1 inp.currentTime else s.detailsPanel := by
  cases c <;> simp [rowStage, rowClick, rowDoubleClick, h]

/-- The toggle of lines 889-899 in the library's terms: a selected roll is
erased, a roll that is not selected is appended. -/
theorem toggleRoll_cases (roll : Int) (sel : List Int) :
    (roll ∈ sel → toggleRoll roll sel = sel.erase roll) ∧
    (roll ∉ sel → toggleRoll roll sel = sel ++ [roll]) := by
  unfold toggleRoll
  constructor
  · intro h; rw [if_pos h]
  · intro h; rw [if_neg h]

theorem frame_state_of_quit (stof : List Char → Option ℚ) (inp : Input) (s : State)
    (h : (frame stof inp s).quit = true) :
    (frame stof inp s).state = keyStage stof inp s := by
  unfold frame at h ⊢
  simp only [] at h ⊢
  split
  · rfl
  · rename_i hc
    rw [if_neg hc] at h
    simp at h

/-! ### The Add button -/

theorem parseCgpa_eq (stof : List Char → Option ℚ) (text : List Char) :
    parseCgpa stof text =
      match stof text with
      | some v => max 0 (min v 4)
      | none => 0 := by
  unfold parseCgpa
  cases stof text with
  | none => rfl
  | some v =>
    simp only []
    by_cases h4 : v > 4
    · have h0 : ¬ ((4 : ℚ) < 0) := by norm_num
      rw [if_pos h4, if_neg h0, min_eq_right (le_of_lt h4), max_eq_right (by norm_num)]
    · rw [if_neg h4, min_eq_left (not_lt.mp h4)]
      by_cases h0 : v < 0
      · rw [if_pos h0, max_eq_left (le_of_lt h0)]
      · rw [if_neg h0, max_eq_right (not_lt.mp h0)]

theorem parseCgpa_bounds (stof : List Char → Option ℚ) (text : List Char) :
    0 ≤ parseCgpa stof text ∧ parseCgpa stof text ≤ 4 := by
  rw [parseCgpa_eq]
  cases stof text with
  | none => simp
  | some v => simp

theorem btnAdd_inButton (mx my : ℚ) (h : btnAddRect.hit mx my = true) : inButton mx my = true := by
  simp [inButton, h]

/-- A click on Add that reaches the button chain runs the Add handler on the
state with the focus cleared; no header is hit. -/
theorem handleClick_add (stof : List Char → Option ℚ) (t : ℚ) (fs : List Student)
    (mx my : ℚ) (s : State) (h : btnAddRect.hit mx my = true) :
    handleClick stof t fs mx my s = addHandler stof t (assignFocus mx my s) := by
  have hy := inButton_bounds mx my (btnAdd_inButton mx my h)
  have hh : headerColumn mx my = none := headerColumn_none mx my (Or.inr (by linarith))
  simp [handleClick, headerClicks_miss _ _ _ hh, buttonClicks, h]

theorem keyStage_noFocus (stof : List Char → Option ℚ) (inp : Input) (s : State)
    (h : focusFlags (clickStage stof inp s) = [false, false, false, false, false, false]) :
    keyStage stof inp s = clickStage stof inp s := by
  unfold keyStage
  simp only []
  rw [keyboardInput_noFocus _ _ h]
  split
  · exact handleBackspace_noFocus _ h
  · rfl

theorem pressStage_hidden (inp : Input) (s : State) (hpress : inp.mouseJustPressed = true)
    (hpanel : s.detailsPanel.visible = false) :
    pressStage inp s = { s with lastClickTime := inp.currentTime } := by
  simp [pressStage, classifyPress, hpress, panelConsumes, hpanel]

theorem clickFlag_hidden (inp : Input) (s : State) (hpress : inp.mouseJustPressed = true)
    (hpanel : s.detailsPanel.visible = false) : clickFlag inp s = true := by
  simp [clickFlag, classifyPress, hpress, panelConsumes, hpanel]

/-- With the panel hidden, the state a frame with a press on Add leaves is
that of the Add handler, up to the details panel. -/
theorem frame_add (stof : List Char → Option ℚ) (inp : Input) (s : State)
    (hpress : inp.mouseJustPressed = true) (hadd : btnAddRect.hit inp.mx inp.my = true)
    (hpanel : s.detailsPanel.visible = false) :
    (frame stof inp s).state.manager =
      (addHandler stof inp.currentTime
        (assignFocus inp.mx inp.my { s with lastClickTime := inp.currentTime })).manager ∧
    fieldTexts (frame stof inp s).state =
      fieldTexts (addHandler stof inp.currentTime
        (assignFocus inp.mx inp.my { s with lastClickTime := inp.currentTime })) ∧
    (frame stof inp s).state.messagePopup =
      (addHandler stof inp.currentTime
        (assignFocus inp.mx inp.my { s with lastClickTime := inp.currentTime })).messagePopup := by
  have hy := inButton_bounds _ _ (btnAdd_inButton _ _ hadd)
  have hcs : clickStage stof inp s = addHandler stof inp.currentTime
      (assignFocus inp.mx inp.my { s with lastClickTime := inp.currentTime }) := by
    unfold clickStage
    simp only []
    rw [if_pos (clickFlag_hidden inp s hpress hpanel), handleClick_add _ _ _ _ _ _ hadd,
      pressStage_hidden inp s hpress hpanel]
  have hff : focusFlags (clickStage stof inp s) = [false, false, false, false, false, false] := by
    rw [clickStage_focusFlags, if_pos (clickFlag_hidden inp s hpress hpanel)]
    exact focusHits_outside _ _ (Or.inr (by linarith))
  have hks := keyStage_noFocus stof inp s hff
  rcases frame_state stof inp s with h | h <;> rw [h]
  · rw [hks, hcs]
    exact ⟨rfl, rfl, rfl⟩
  · rw [rowStage_none _ _ _ _ (by linarith), hks, hcs]
    simp

/-- The Add handler when the name is non-empty and the roll parses to `r ≥ 0`. -/
theorem addHandler_success (stof : List Char → Option ℚ) (t : ℚ) (s : State) (r : Int)
    (hname : s.inputName.text ≠ []) (hroll : stoi s.inputRoll.text = some r) (hr : 0 ≤ r) :
    (addHandler stof t s).manager.students =
      s.manager.students ++
        [⟨s.inputName.text, r, s.inputGrade.text, s.inputDepartment.text,
          parseCgpa stof s.inputCGPA.text⟩] ∧
    fieldTexts (addHandler stof t s) = [[], [], [], s.inputSearch.text, [], []] ∧
    (addHandler stof t s).messagePopup =
      s.messagePopup.show "Student added successfully!".toList t := by
  have hpr : parseRoll s.inputRoll.text = r := by simp [parseRoll, hroll]
  have hne : s.inputName.text.isEmpty = false := by
    cases hn : s.inputName.text with
    | nil => exact absurd hn hname
    | cons c cs => rfl
  unfold addHandler
  simp only [hpr, hne, hr, Bool.not_false, Bool.true_and, decide_True, ge_iff_le, if_true]
  refine ⟨?_, ?_, ?_⟩ <;> first | rfl | trivial

/-- Two rectangles that are apart in `x` or in `y` are never hit together. -/
theorem hit_apart (r1 r2 : Rect) (mx my : ℚ)
    (h : r1.x + r1.w < r2.x ∨ r2.x + r2.w < r1.x ∨ r1.y + r1.h < r2.y ∨ r2.y + r2.h < r1.y) :
    r1.hit mx my = true → r2.hit mx my = false := by
  intro h1
  by_contra h2
  simp only [Rect.hit, pointInRect, Bool.not_eq_false, Bool.and_eq_true, decide_eq_true_eq] at h1 h2
  rcases h with h | h | h | h <;> linarith [h1.1.1.1, h1.1.1.2, h1.1.2, h1.2, h2.1.1.1, h2.1.1.2, h2.1.2, h2.2]

/-- Six flags of which no two hold together count at most one `true`. -/
theorem count_le_one_of_apart (a b c d e f : Bool)
    (hab : a = true → b = false) (hac : a = true → c = false) (had : a = true → d = false)
    (hae : a = true → e = false) (haf : a = true → f = false)
    (hbc : b = true → c = false) (hbd : b = true → d = false) (hbe : b = true → e = false)
    (hbf : b = true → f = false)
    (hcd : c = true → d = false) (hce : c = true → e = false) (hcf : c = true → f = false)
    (hde : d = true → e = false) (hdf : d = true → f = false)
    (hef : e = true → f = false) :
    [a, b, c, d, e, f].count true ≤ 1 := by
  cases a
  · cases b
    · cases c
      · cases d
        · cases e
          · cases f <;> decide
          · obtain rfl := hef rfl
            decide
        · obtain rfl := hde rfl
          obtain rfl := hdf rfl
          decide
      · obtain rfl := hcd rfl
        obtain rfl := hce rfl
        obtain rfl := hcf rfl
        decide
    · obtain rfl := hbc rfl
      obtain rfl := hbd rfl
      obtain rfl := hbe rfl
      obtain rfl := hbf rfl
      decide
  · obtain rfl := hab rfl
    obtain rfl := hac rfl
    obtain rfl := had rfl
    obtain rfl := hae rfl
    obtain rfl := haf rfl
    decide

/-- The six input boxes are pairwise apart, so a point hits at most one. -/
theorem focusHits_count (mx my : ℚ) : (focusHits mx my).count true ≤ 1 := by
  unfold focusHits
  apply count_le_one_of_apart <;> apply hit_apart <;>
    norm_num [inputNameRect, inputRollRect, inputGradeRect, inputSearchRect,
      inputDepartmentRect, inputCGPARect, inputY1, inputY2, SCR_H]

theorem reachable_focus (stof : List Char → Option ℚ) (s : State) (h : Reachable stof s) :
    (focusFlags s).count true ≤ 1 := by
  induction h with
  | init loaded => simp [focusFlags, initState]
  | step inp s _ _ ih =>
    rw [frame_focusFlags]
    split
    · exact focusHits_count _ _
    · exact ih

/-! ### `std::sort` -/

theorem sortInsert_perm {α : Type} (comp : α → α → Bool) (x : α) (l : List α) :
    (sortInsert comp x l).Perm (x :: l) := by
  induction l with
  | nil => exact List.Perm.refl _
  | cons y ys ih =>
    unfold sortInsert
    split
    · exact List.Perm.refl _
    · exact (List.Perm.cons y ih).trans (List.Perm.swap x y ys)

theorem stdSort_perm {α : Type} (comp : α → α → Bool) (l : List α) :
    (stdSort comp l).Perm l := by
  induction l with
  | nil => exact List.Perm.refl _
  | cons x xs ih => exact (sortInsert_perm comp x _).trans (List.Perm.cons x ih)

/-- Insertion keeps a list ordered, for a comparison that is asymmetric and
whose complement is transitive (a strict weak ordering). -/
theorem sortInsert_pairwise {α : Type} (comp : α → α → Bool)
    (hasym : ∀ a b, comp a b = true → comp b a = false)
    (htrans : ∀ a b c, comp b a = false → comp c b = false → comp c a = false)
    (x : α) (l : List α) (h : l.Pairwise (fun a b => comp b a = false)) :
    (sortInsert comp x l).Pairwise (fun a b => comp b a = false) := by
  induction l with
  | nil => simp [sortInsert]
  | cons y ys ih =>
    rw [List.pairwise_cons] at h
    unfold sortInsert
    split
    · rename_i hxy
      rw [List.pairwise_cons]
      refine ⟨?_, List.pairwise_cons.mpr h⟩
      intro z hz
      rcases List.mem_cons.mp hz with rfl | hz
      · exact hasym _ _ hxy
      · exact htrans _ _ _ (hasym _ _ hxy) (h.1 z hz)
    · rename_i hxy
      rw [List.pairwise_cons]
      refine ⟨?_, ih h.2⟩
      intro z hz
      rcases List.mem_cons.mp ((sortInsert_perm comp x ys).mem_iff.mp hz) with rfl | hz
      · simpa using hxy
      · exact h.1 z hz

theorem stdSort_pairwise {α : Type} (comp : α → α → Bool)
    (hasym : ∀ a b, comp a b = true → comp b a = false)
    (htrans : ∀ a b c, comp b a = false → comp c b = false → comp c a = false)
    (l : List α) : (stdSort comp l).Pairwise (fun a b => comp b a = false) := by
  induction l with
  | nil => simp [stdSort]
  | cons x xs ih => exact sortInsert_pairwise comp hasym htrans x _ ih

/-- Sorting with `key a < key b` leaves the keys non-decreasing. -/
theorem stdSort_asc {K : Type} [LinearOrder K] (key : Student → K) (l : List Student) :
    (stdSort (fun a b => decide (key a < key b)) l).Pairwise (fun a b => key a ≤ key b) := by
  have h := stdSort_pairwise (fun a b => decide (key a < key b))
    (by intro a b hab; simp only [decide_eq_true_eq, decide_eq_false_iff_not] at hab ⊢
        exact not_lt.mpr (le_of_lt hab))
    (by intro a b c h1 h2; simp only [decide_eq_false_iff_not, not_lt] at h1 h2 ⊢
        exact le_trans h1 h2) l
  exact h.imp (by intro a b hab; simpa using hab)

/-- Sorting with `key a > key b` leaves the keys non-increasing. -/
theorem stdSort_desc {K : Type} [LinearOrder K] (key : Student → K) (l : List Student) :
    (stdSort (fun a b => decide (key a > key b)) l).Pairwise (fun a b => key b ≤ key a) := by
  have h := stdSort_pairwise (fun a b => decide (key a > key b))
    (by intro a b hab; simp only [gt_iff_lt, decide_eq_true_eq, decide_eq_false_iff_not] at hab ⊢
        exact not_lt.mpr (le_of_lt hab))
    (by intro a b c h1 h2; simp only [gt_iff_lt, decide_eq_false_iff_not, not_lt] at h1 h2 ⊢
        exact le_trans h2 h1) l
  exact h.imp (by intro a b hab; simpa using hab)

/-- The comparison of `std::string`s is the lexicographic order of the lists. -/
theorem strLt_iff (a b : List Char) : strLt a b = true ↔ a < b := by
  induction a generalizing b with
  | nil =>
    cases b with
    | nil => simp [strLt]
    | cons y ys =>
      simp only [strLt, true_iff]
      exact List.Lex.nil
  | cons x xs ih =>
    cases b with
    | nil => simp [strLt]
    | cons y ys =>
      have hlt : ∀ c d : Char, c.toNat < d.toNat ↔ c < d := by
        intro c d
        rw [Char.lt_def]
        rfl
      unfold strLt
      by_cases h1 : x.toNat < y.toNat
      · rw [if_pos h1]
        simp only [true_iff]
        exact List.Lex.rel ((hlt x y).mp h1)
      · rw [if_neg h1]
        by_cases h2 : y.toNat < x.toNat
        · rw [if_pos h2]
          simp only [Bool.false_eq_true, false_iff]
          intro hl
          cases hl with
          | cons h => exact h1 h2
          | rel h => exact h1 ((hlt x y).mpr h)
        · rw [if_neg h2, ih]
          have hxy : x = y := by
            apply Char.eq_of_val_eq
            apply UInt32.eq_of_val_eq
            apply Fin.eq_of_val_eq
            exact le_antisymm (not_lt.mp h2) (not_lt.mp h1)
          subst hxy
          constructor
          · intro h
            exact List.Lex.cons h
          · intro hl
            cases hl with
            | cons h => exact h
            | rel h => exact absurd ((hlt x x).mpr h) h1

theorem strLt_eq_decide (a b : List Char) : strLt a b = decide (a < b) := by
  rw [Bool.eq_iff_iff, strLt_iff]; simp

/-- The store after `sortBy(c)`, by the direction the call settles on. -/
theorem sortBy_students (m : StudentManager) (c : SortColumn) :
    (m.sortBy c).students =
      match c, (m.sortBy c).sortState.ascending with
      | .ROLL, true => stdSort (fun a b => decide (a.roll < b.roll)) m.students
      | .ROLL, false => stdSort (fun a b => decide (a.roll > b.roll)) m.students
      | .NAME, true => stdSort (fun a b => decide (a.name < b.name)) m.students
      | .NAME, false => stdSort (fun a b => decide (a.name > b.name)) m.students
      | .GRADE, true => stdSort (fun a b => decide (a.grade < b.grade)) m.students
      | .GRADE, false => stdSort (fun a b => decide (a.grade > b.grade)) m.students
      | .DEPARTMENT, true => stdSort (fun a b => decide (a.department < b.department)) m.students
      | .DEPARTMENT, false => stdSort (fun a b => decide (a.department > b.department)) m.students
      | .CGPA, true => stdSort (fun a b => decide (a.cgpa < b.cgpa)) m.students
      | .CGPA, false => stdSort (fun a b => decide (a.cgpa > b.cgpa)) m.students
      | .NONE, _ => m.students := by
  unfold StudentManager.sortBy
  simp only []
  cases c <;>
    cases (if m.sortState.column = _ then
        ({ m.sortState with ascending := !m.sortState.ascending } : SortState)
      else { column := _, ascending := true }).ascending <;>
    simp [strLt_eq_decide]

/-! ## The claims -/

/-- C1. A processed press edge at time `t` with stored time `p` sets `click`,
sets `doubleClick` exactly when `t - p ≤ 0.3`, and stores `t`; a frame without a
press edge sets neither flag and keeps the stored time. The stored time after
the whole frame is the one the classification leaves. -/
theorem click_classification (stof : List Char → Option ℚ) (inp : Input) (s : State)
    (pressed : Bool) (t p : ℚ) :
    (classifyPress pressed t p).1 = pressed ∧
    ((classifyPress pressed t p).2.1 = true ↔ (pressed = true ∧ t - p ≤ 3 / 10)) ∧
    (classifyPress pressed t p).2.2 = (if pressed then t else p) ∧
    (doubleClickFlag inp s = true ↔
      (inp.mouseJustPressed = true ∧ inp.currentTime - s.lastClickTime ≤ 3 / 10)) ∧
    (frame stof inp s).state.lastClickTime =
      (if inp.mouseJustPressed then inp.currentTime else s.lastClickTime) := by
  have h : ∀ (b : Bool) (t p : ℚ),
      (classifyPress b t p).1 = b ∧
      ((classifyPress b t p).2.1 = true ↔ (b = true ∧ t - p ≤ 3 / 10)) ∧
      (classifyPress b t p).2.2 = (if b then t else p) := by
    intro b t p
    cases b <;> simp [classifyPress, DOUBLE_CLICK_TIME]
  refine ⟨(h pressed t p).1, (h pressed t p).2.1, (h pressed t p).2.2, ?_, ?_⟩
  · exact (h inp.mouseJustPressed inp.currentTime s.lastClickTime).2.1
  · rw [frame_lastClickTime]
    exact (h inp.mouseJustPressed inp.currentTime s.lastClickTime).2.2

/-- C2. The code at the failing input: the first press of a session, processed
`0.2` after the clock started, with `lastClickTime` still at its initial `0`, is
flagged as a double click. -/
theorem first_press_flagged_doubleClick :
    (initState []).lastClickTime = 0 ∧ (0 : ℚ) ≤ firstPressInput.currentTime ∧
      firstPressInput.mouseJustPressed = true ∧
      doubleClickFlag firstPressInput (initState []) = true := by
  decide!

/-- What the code does guarantee for the first press: it is not flagged as a
double click once more than `0.3` has passed since the clock started. -/
theorem first_press_after_window (inp : Input) (loaded : List Student)
    (h : 3 / 10 < inp.currentTime) : doubleClickFlag inp (initState loaded) = false := by
  unfold doubleClickFlag classifyPress
  cases inp.mouseJustPressed
  · rfl
  · simp [initState, DOUBLE_CLICK_TIME, h]

/-- C3 as amended. In a frame that the loop does not leave, a press flagged as a
double click inside the rectangle of an on-screen row `p` of the visible list
toggles that row's roll in the selection: a selected roll is removed, a roll
that is not selected is appended. The details panel is shown on that row when
the press was not consumed by the panel's close test (it is what `show` makes
of the panel, so a hidden panel is opened and an open one is retargeted), and
is hidden without a target when the press was consumed. -/
theorem row_doubleClick (stof : List Char → Option ℚ) (inp : Input) (s : State)
    (p : Nat × Student)
    (hquit : (frame stof inp s).quit = false)
    (hdouble : doubleClickFlag inp s = true)
    (hrow : hitRow inp.mx inp.my (visibleList (escapeStage inp (keyStage stof inp s))) 0 = some p) :
    (p.2.roll ∈ s.selectedRolls →
      (frame stof inp s).state.selectedRolls = s.selectedRolls.erase p.2.roll) ∧
    (p.2.roll ∉ s.selectedRolls →
      (frame stof inp s).state.selectedRolls = s.selectedRolls ++ [p.2.roll]) ∧
    (clickFlag inp s = true →
      (frame stof inp s).state.detailsPanel =
        (if inp.keyEscape then s.detailsPanel.hide else s.detailsPanel).show p.1 inp.currentTime ∧
      (frame stof inp s).state.detailsPanel.visible = true ∧
      (frame stof inp s).state.detailsPanel.currentStudent = some p.1) ∧
    (clickFlag inp s = false →
      (frame stof inp s).state.detailsPanel.visible = false ∧
      (frame stof inp s).state.detailsPanel.currentStudent = none) := by
  obtain ⟨idx, hidx⟩ := hitRow_some _ _ _ _ _ hrow
  have hy : inp.my < 640 := by linarith [(rowHit_bounds _ _ _ hidx).1]
  have hpress : inp.mouseJustPressed = true := by
    cases hm : inp.mouseJustPressed
    · simp [doubleClickFlag, classifyPress, hm] at hdouble
    · rfl
  obtain ⟨hsel, hpan⟩ := rowStage_hit inp (clickFlag inp s) _ p hrow
  have hsel' : (frame stof inp s).state.selectedRolls = toggleRoll p.2.roll s.selectedRolls := by
    rw [frame_state_of_not_quit stof inp s hquit, hdouble, hsel, escapeStage_selectedRolls,
      keyStage_selectedRolls stof inp s hy]
  have hshow : ∀ (q : DetailsPanel) (i : Nat) (t : ℚ),
      (q.show i t).visible = true ∧ (q.show i t).currentStudent = some i := by
    intro q i t
    unfold DetailsPanel.show
    simp only []
    split <;> simp_all
  refine ⟨?_, ?_, ?_, ?_⟩
  · intro h
    rw [hsel', (toggleRoll_cases _ _).1 h]
  · intro h
    rw [hsel', (toggleRoll_cases _ _).2 h]
  · intro hc
    have hncons : panelConsumes s.detailsPanel inp.mx inp.my = false := by
      simpa [clickFlag, classifyPress, hpress] using hc
    have hk : (keyStage stof inp s).detailsPanel = s.detailsPanel := by
      rw [keyStage_detailsPanel, pressStage_detailsPanel]
      simp [hncons]
    have he : (escapeStage inp (keyStage stof inp s)).detailsPanel =
        (if inp.keyEscape then s.detailsPanel.hide else s.detailsPanel) := by
      unfold escapeStage
      cases inp.keyEscape <;> simp [hk]
    have hfull : (frame stof inp s).state.detailsPanel =
        (if inp.keyEscape then s.detailsPanel.hide else s.detailsPanel).show p.1
          inp.currentTime := by
      rw [frame_state_of_not_quit stof inp s hquit, hdouble, hpan, if_pos hc, he]
    rw [hfull]
    exact ⟨rfl, (hshow _ _ _).1, (hshow _ _ _).2⟩
  · intro hc
    rw [frame_state_of_not_quit stof inp s hquit, hdouble, hpan, hc, if_neg (by simp)]
    have hcons : panelConsumes s.detailsPanel inp.mx inp.my = true := by
      simpa [clickFlag, classifyPress, hpress] using hc
    have hk : (keyStage stof inp s).detailsPanel = s.detailsPanel.hide := by
      rw [keyStage_detailsPanel, pressStage_detailsPanel]
      simp [hpress, hcons]
    unfold escapeStage
    cases inp.keyEscape <;> simp [hk, DetailsPanel.hide]

/-- The claim C3 fails: with the panel hidden, a press flagged as a double
click inside row `0` toggles the roll and also opens the details panel on that
row. -/
theorem row_doubleClick_opens_panel :
    doubleClickFlag rowPress rowState = true ∧
    hitRow rowPress.mx rowPress.my (visibleList rowState) 0 = some (0, ada) ∧
    (frame stofDecimal rowPress rowState).state.selectedRolls = [7] ∧
    rowState.detailsPanel.visible = false ∧
    rowState.detailsPanel.currentStudent = none ∧
    (frame stofDecimal rowPress rowState).state.detailsPanel.visible = true ∧
    (frame stofDecimal rowPress rowState).state.detailsPanel.currentStudent = some 0 := by
  decide!

/-- The amended C3 at three frames: a double click on row 0 with the panel
hidden selects roll 7 and opens the panel on it; on the selected row it
removes roll 7 from the selection; and with the panel open on row 0, a double
click right of the panel edge selects roll 7 and leaves the panel as it was. -/
theorem row_doubleClick_witness :
    (frame stofDecimal rowPress rowState).quit = false ∧
    doubleClickFlag rowPress rowState = true ∧
    rowState.selectedRolls = [] ∧
    (frame stofDecimal rowPress rowState).state.selectedRolls = [7] ∧
    (frame stofDecimal rowPress rowState).state.detailsPanel =
      { visible := true, currentStudent := some 0, animationStart := 11 / 10 } ∧
    rowSelectedState.selectedRolls = [7] ∧
    (frame stofDecimal rowPress rowSelectedState).state.selectedRolls = [] ∧
    clickFlag rowPressRight panelOpenState = true ∧
    (frame stofDecimal rowPressRight panelOpenState).state.selectedRolls = [7] ∧
    (frame stofDecimal rowPressRight panelOpenState).state.detailsPanel =
      panelOpenState.detailsPanel :=
  ⟨by decide!, by decide!, rfl,
    (row_doubleClick stofDecimal rowPress rowState (0, ada) (by decide!) (by decide!)
      (by decide!)).2.1 (by decide),
    ((row_doubleClick stofDecimal rowPress rowState (0, ada) (by decide!) (by decide!)
      (by decide!)).2.2.1 (by decide!)).1.trans (by decide!),
    rfl,
    (row_doubleClick stofDecimal rowPress rowSelectedState (0, ada) (by decide!) (by decide!)
      (by decide!)).1 (by decide),
    by decide!,
    (row_doubleClick stofDecimal rowPressRight panelOpenState (0, ada) (by decide!) (by decide!)
      (by decide!)).2.1 (by decide),
    ((row_doubleClick stofDecimal rowPressRight panelOpenState (0, ada) (by decide!) (by decide!)
      (by decide!)).2.2.1 (by decide!)).1.trans (by decide!)⟩

/-- C4 as amended. A press that the visible panel's close test consumes (on the
close button, or left of the panel edge) hides the panel and reaches no handler
of a click: the focus flags, the store and the sort state are as they were.
The selection is as it was unless the press is flagged as a double click
inside the rectangle of an on-screen row `p` in a frame that the loop does not
leave; then that row's roll is toggled: removed when selected, appended when
not. -/
theorem panel_close_consumes_click (stof : List Char → Option ℚ) (inp : Input) (s : State)
    (hpress : inp.mouseJustPressed = true) (hvis : s.detailsPanel.visible = true)
    (hclose : closeRect.hit inp.mx inp.my = true ∨ inp.mx < panelX) :
    ((frame stof inp s).state.detailsPanel.visible = false ∧
      (frame stof inp s).state.detailsPanel.currentStudent = none) ∧
    focusFlags (frame stof inp s).state = focusFlags s ∧
    (frame stof inp s).state.manager = s.manager ∧
    (doubleClickFlag inp s = false → (frame stof inp s).state.selectedRolls = s.selectedRolls) ∧
    ((frame stof inp s).quit = true → (frame stof inp s).state.selectedRolls = s.selectedRolls) ∧
    (hitRow inp.mx inp.my (visibleList (escapeStage inp (keyStage stof inp s))) 0 = none →
      (frame stof inp s).state.selectedRolls = s.selectedRolls) ∧
    (∀ p : Nat × Student, (frame stof inp s).quit = false → doubleClickFlag inp s = true →
      hitRow inp.mx inp.my (visibleList (escapeStage inp (keyStage stof inp s))) 0 = some p →
        (p.2.roll ∈ s.selectedRolls →
          (frame stof inp s).state.selectedRolls = s.selectedRolls.erase p.2.roll) ∧
        (p.2.roll ∉ s.selectedRolls →
          (frame stof inp s).state.selectedRolls = s.selectedRolls ++ [p.2.roll])) := by
  have hcons : panelConsumes s.detailsPanel inp.mx inp.my = true := by
    rcases hclose with h | h <;> simp [panelConsumes, hvis, h]
  have hcf : clickFlag inp s = false := by simp [clickFlag, hcons]
  have hcs : clickStage stof inp s = pressStage inp s := by simp [clickStage, hcf]
  have hkp : (keyStage stof inp s).detailsPanel = s.detailsPanel.hide := by
    rw [keyStage_detailsPanel, pressStage_detailsPanel]
    simp [hpress, hcons]
  have hkm : (keyStage stof inp s).manager = s.manager := by
    unfold keyStage
    simp only []
    split <;> simp [hcs]
  have hks : (keyStage stof inp s).selectedRolls = s.selectedRolls := by
    unfold keyStage
    simp only []
    split <;> simp [hcs]
  have he : (escapeStage inp (keyStage stof inp s)).detailsPanel.visible = false ∧
      (escapeStage inp (keyStage stof inp s)).detailsPanel.currentStudent = none := by
    unfold escapeStage
    cases inp.keyEscape <;> simp [hkp, DetailsPanel.hide]
  refine ⟨?_, ?_, ?_, ?_, ?_, ?_, ?_⟩
  · rcases frame_state stof inp s with h | h <;> rw [h]
    · rw [hkp]; exact ⟨rfl, rfl⟩
    · rw [hcf]
      unfold rowStage
      cases doubleClickFlag inp s <;> simp [he]
  · rw [frame_focusFlags, hcf]; simp
  · rcases frame_state stof inp s with h | h <;> rw [h] <;> simp [hkm]
  · intro hd
    rcases frame_state stof inp s with h | h <;> rw [h]
    · exact hks
    · rw [hcf, hd]
      simp [rowStage, hks]
  · intro hq
    rw [frame_state_of_quit stof inp s hq]
    exact hks
  · intro hnone
    rcases frame_state stof inp s with h | h <;> rw [h]
    · exact hks
    · rw [hcf]
      cases doubleClickFlag inp s <;> simp [rowStage, rowDoubleClick, hnone, hks]
  · intro p hq hd hrow
    obtain ⟨hsel, _⟩ := rowStage_hit inp (clickFlag inp s) _ p hrow
    have hsel' : (frame stof inp s).state.selectedRolls =
        toggleRoll p.2.roll s.selectedRolls := by
      rw [frame_state_of_not_quit stof inp s hq, hd, hsel, escapeStage_selectedRolls, hks]
    constructor
    · intro h
      rw [hsel', (toggleRoll_cases _ _).1 h]
    · intro h
      rw [hsel', (toggleRoll_cases _ _).2 h]

/-- The claim C4 fails: the panel is visible, the press lies left of the panel
(`mx = 100 < 650`) and is flagged as a double click inside row `0`; the panel
is hidden and the click flag is reset, yet the selection goes from empty to
`[7]`. -/
theorem panel_close_keeps_doubleClick :
    panelOpenState.detailsPanel.visible = true ∧
    rowPress.mx < panelX ∧
    doubleClickFlag rowPress panelOpenState = true ∧
    clickFlag rowPress panelOpenState = false ∧
    (frame stofDecimal rowPress panelOpenState).state.detailsPanel.visible = false ∧
    panelOpenState.selectedRolls = [] ∧
    (frame stofDecimal rowPress panelOpenState).state.selectedRolls = [7] := by
  decide!

/-- The amended C4 at the second press of a double click on row 0, left of the
panel edge, with the panel open on that row: the panel is hidden, the store is
as it was, and roll 7 is selected; on the selected row it is removed again. -/
theorem panel_close_consumes_click_witness :
    rowPress.mouseJustPressed = true ∧ panelOpenState.detailsPanel.visible = true ∧
    rowPress.mx < panelX ∧
    (frame stofDecimal rowPress panelOpenState).state.detailsPanel.visible = false ∧
    (frame stofDecimal rowPress panelOpenState).state.manager = panelOpenState.manager ∧
    focusFlags (frame stofDecimal rowPress panelOpenState).state = focusFlags panelOpenState ∧
    (frame stofDecimal rowPress panelOpenState).state.selectedRolls = [7] ∧
    (frame stofDecimal rowPress panelOpenSelected).state.selectedRolls = [] :=
  ⟨rfl, rfl, by decide!,
    (panel_close_consumes_click stofDecimal rowPress panelOpenState rfl rfl
      (Or.inr (by decide!))).1.1,
    (panel_close_consumes_click stofDecimal rowPress panelOpenState rfl rfl
      (Or.inr (by decide!))).2.2.1,
    (panel_close_consumes_click stofDecimal rowPress panelOpenState rfl rfl
      (Or.inr (by decide!))).2.1,
    ((panel_close_consumes_click stofDecimal rowPress panelOpenState rfl rfl
      (Or.inr (by decide!))).2.2.2.2.2.2 (0, ada) (by decide!) (by decide!) (by decide!)).2
      (by decide),
    ((panel_close_consumes_click stofDecimal rowPress panelOpenSelected rfl rfl
      (Or.inr (by decide!))).2.2.2.2.2.2 (0, ada) (by decide!) (by decide!) (by decide!)).1
      (by decide)⟩

/-- C5 as amended. With the panel hidden, a click inside a column header, a
button or a list row leaves all six input boxes unfocused. -/
theorem click_on_target_clears_focus (stof : List Char → Option ℚ) (inp : Input) (s : State)
    (hpress : inp.mouseJustPressed = true) (hpanel : s.detailsPanel.visible = false)
    (htarget : inHeader inp.mx inp.my = true ∨ inButton inp.mx inp.my = true ∨
      ∃ idx, rowHit inp.mx inp.my idx = true) :
    focusFlags (frame stof inp s).state = [false, false, false, false, false, false] := by
  have hc : clickFlag inp s = true := by
    simp [clickFlag, classifyPress, hpress, panelConsumes, hpanel]
  rw [frame_focusFlags, if_pos hc]
  apply focusHits_outside
  rcases htarget with h | h | ⟨idx, h⟩
  · left; linarith [(inHeader_bounds _ _ h).2]
  · right; linarith [inButton_bounds _ _ h]
  · left; linarith [(rowHit_bounds _ _ _ h).1]

/-- The claim C5 fails: with the panel hidden and the Name box focused, a click
on the Add button leaves the Name box unfocused. -/
theorem add_click_clears_name_focus :
    nameFocused.detailsPanel.visible = false ∧
    addPress.mouseJustPressed = true ∧
    btnAddRect.hit addPress.mx addPress.my = true ∧
    focusFlags nameFocused = [true, false, false, false, false, false] ∧
    focusFlags (frame stofDecimal addPress nameFocused).state =
      [false, false, false, false, false, false] := by
  decide!

/-- The amended C5 at the click `addPress` in `nameFocused`. -/
theorem click_on_target_clears_focus_witness :
    addPress.mouseJustPressed = true ∧ nameFocused.detailsPanel.visible = false ∧
    inButton addPress.mx addPress.my = true ∧
    focusFlags (frame stofDecimal addPress nameFocused).state =
      [false, false, false, false, false, false] :=
  ⟨rfl, rfl, by decide!,
    click_on_target_clears_focus stofDecimal addPress nameFocused rfl rfl
      (Or.inr (Or.inl (by decide!)))⟩

/-- C6. In every reachable state at most one of the six input boxes is focused;
and after a click that the details panel does not consume, each box is focused
exactly when its rectangle contains the pointer (so none is, when the pointer is
in no box). -/
theorem focus_exclusive (stof : List Char → Option ℚ) (s : State) (h : Reachable stof s) :
    (focusFlags s).count true ≤ 1 ∧
    ∀ inp : Input, clickFlag inp s = true →
      focusFlags (frame stof inp s).state = focusHits inp.mx inp.my ∧
      (focusHits inp.mx inp.my).count true ≤ 1 := by
  refine ⟨reachable_focus stof s h, ?_⟩
  intro inp hc
  rw [frame_focusFlags, if_pos hc]
  exact ⟨rfl, focusHits_count _ _⟩

/-- C6 at the state reached from the initial state by a click on the Name box,
and at a following click on the Roll box. -/
theorem focus_exclusive_witness :
    Reachable stofDecimal (frame stofDecimal namePress (initState [])).state ∧
    focusFlags (frame stofDecimal namePress (initState [])).state =
      [true, false, false, false, false, false] ∧
    (focusFlags (frame stofDecimal namePress (initState [])).state).count true ≤ 1 ∧
    focusFlags (frame stofDecimal rollPress (frame stofDecimal namePress (initState [])).state).state =
      focusHits rollPress.mx rollPress.my :=
  ⟨Reachable.step namePress (initState []) (Reachable.init []) (by decide!), by decide!,
    (focus_exclusive stofDecimal (frame stofDecimal namePress (initState [])).state
      (Reachable.step namePress (initState []) (Reachable.init []) (by decide!))).1,
    ((focus_exclusive stofDecimal (frame stofDecimal namePress (initState [])).state
      (Reachable.step namePress (initState []) (Reachable.init []) (by decide!))).2
        rollPress (by decide!)).1⟩

/-- C7. After `sortBy(c)` the active column is `c`; the direction is the
negation of the old one when `c` was already active, and ascending otherwise. -/
theorem sortBy_sortState (m : StudentManager) (c : SortColumn) :
    (m.sortBy c).sortState.column = c ∧
    (m.sortBy c).sortState.ascending =
      (if m.sortState.column = c then !m.sortState.ascending else true) := by
  unfold StudentManager.sortBy
  by_cases h : m.sortState.column = c <;> simp [h]

/-- C8. For a column other than `NONE`, the store after `sortBy(c)` is a
permutation of the store before, and every adjacent pair of records is
non-decreasing in column `c` when the resulting direction is ascending and
non-increasing when it is descending. -/
theorem sortBy_orders (m : StudentManager) (c : SortColumn) (hc : c ≠ SortColumn.NONE) :
    (m.sortBy c).students.Perm m.students ∧
    ((m.sortBy c).sortState.ascending = true →
      List.Chain' (fun a b => colLe c a b) (m.sortBy c).students) ∧
    ((m.sortBy c).sortState.ascending = false →
      List.Chain' (fun a b => colLe c b a) (m.sortBy c).students) := by
  rw [sortBy_students]
  cases c with
  | NONE => exact absurd rfl hc
  | ROLL =>
    cases (m.sortBy SortColumn.ROLL).sortState.ascending
    · exact ⟨stdSort_perm _ _, by simp, fun _ => (stdSort_desc (fun s => s.roll) _).chain'⟩
    · exact ⟨stdSort_perm _ _, fun _ => (stdSort_asc (fun s => s.roll) _).chain', by simp⟩
  | NAME =>
    cases (m.sortBy SortColumn.NAME).sortState.ascending
    · exact ⟨stdSort_perm _ _, by simp, fun _ => (stdSort_desc (fun s => s.name) _).chain'⟩
    · exact ⟨stdSort_perm _ _, fun _ => (stdSort_asc (fun s => s.name) _).chain', by simp⟩
  | GRADE =>
    cases (m.sortBy SortColumn.GRADE).sortState.ascending
    · exact ⟨stdSort_perm _ _, by simp, fun _ => (stdSort_desc (fun s => s.grade) _).chain'⟩
    · exact ⟨stdSort_perm _ _, fun _ => (stdSort_asc (fun s => s.grade) _).chain', by simp⟩
  | DEPARTMENT =>
    cases (m.sortBy SortColumn.DEPARTMENT).sortState.ascending
    · exact ⟨stdSort_perm _ _, by simp, fun _ => (stdSort_desc (fun s => s.department) _).chain'⟩
    · exact ⟨stdSort_perm _ _, fun _ => (stdSort_asc (fun s => s.department) _).chain', by simp⟩
  | CGPA =>
    cases (m.sortBy SortColumn.CGPA).sortState.ascending
    · exact ⟨stdSort_perm _ _, by simp, fun _ => (stdSort_desc (fun s => s.cgpa) _).chain'⟩
    · exact ⟨stdSort_perm _ _, fun _ => (stdSort_asc (fun s => s.cgpa) _).chain', by simp⟩

/-- C8 at a store of three records sorted by CGPA. -/
theorem sortBy_orders_witness :
    (threeRecords.sortBy SortColumn.CGPA).students = [cy, ada, bob] ∧
    (threeRecords.sortBy SortColumn.CGPA).students.Perm threeRecords.students ∧
    ((threeRecords.sortBy SortColumn.CGPA).sortState.ascending = true →
      List.Chain' (fun a b => colLe SortColumn.CGPA a b)
        (threeRecords.sortBy SortColumn.CGPA).students) ∧
    ((threeRecords.sortBy SortColumn.CGPA).sortState.ascending = false →
      List.Chain' (fun a b => colLe SortColumn.CGPA b a)
        (threeRecords.sortBy SortColumn.CGPA).students) :=
  ⟨by decide!, sortBy_orders threeRecords SortColumn.CGPA (by decide)⟩

/-- C9 as amended. With the details panel hidden, a non-empty name and a roll
text that `stoi` parses to `r ≥ 0`, a press on Add appends exactly one record
`{name, r, grade, department, score}` at the end of the store, where `score` is
`stof` of the score text capped into `[0, 4]` (and `0` when `stof` throws);
Name, Roll, Grade, Department and CGPA are empty afterwards, Search is
unchanged, and the toast is visible at the current time with the text
"Student added successfully!". -/
theorem add_success (stof : List Char → Option ℚ) (inp : Input) (s : State) (r : Int)
    (hpress : inp.mouseJustPressed = true) (hadd : btnAddRect.hit inp.mx inp.my = true)
    (hpanel : s.detailsPanel.visible = false)
    (hname : s.inputName.text ≠ []) (hroll : stoi s.inputRoll.text = some r) (hr : 0 ≤ r) :
    (frame stof inp s).state.manager.students =
      s.manager.students ++
        [⟨s.inputName.text, r, s.inputGrade.text, s.inputDepartment.text,
          parseCgpa stof s.inputCGPA.text⟩] ∧
    (parseCgpa stof s.inputCGPA.text =
      match stof s.inputCGPA.text with
      | some v => max 0 (min v 4)
      | none => 0) ∧
    (0 ≤ parseCgpa stof s.inputCGPA.text ∧ parseCgpa stof s.inputCGPA.text ≤ 4) ∧
    fieldTexts (frame stof inp s).state = [[], [], [], s.inputSearch.text, [], []] ∧
    (frame stof inp s).state.messagePopup.isVisible inp.currentTime = true ∧
    (frame stof inp s).state.messagePopup.text = "Student added successfully!".toList := by
  obtain ⟨hm, hf, hp⟩ := frame_add stof inp s hpress hadd hpanel
  obtain ⟨am, af, ap⟩ := addHandler_success stof inp.currentTime
    (assignFocus inp.mx inp.my { s with lastClickTime := inp.currentTime }) r hname hroll hr
  refine ⟨?_, parseCgpa_eq _ _, parseCgpa_bounds _ _, ?_, ?_, ?_⟩
  · rw [hm, am]; rfl
  · rw [hf, af]; rfl
  · rw [hp, ap]
    simp [MessagePopup.isVisible, MessagePopup.show, MessagePopup.duration]
    norm_num
  · rw [hp, ap]; rfl

/-- The claim C9 fails: the name is non-empty and the roll text parses to `2`,
but the details panel is visible, so its close test consumes the press on Add
and the store keeps its single record. -/
theorem add_blocked_by_open_panel :
    addReadyPanelOpen.inputName.text ≠ [] ∧
    stoi addReadyPanelOpen.inputRoll.text = some 2 ∧
    addPress.mouseJustPressed = true ∧
    btnAddRect.hit addPress.mx addPress.my = true ∧
    addReadyPanelOpen.manager.students = [ada] ∧
    (frame stofDecimal addPress addReadyPanelOpen).state.manager.students = [ada] ∧
    (frame stofDecimal addPress addReadyPanelOpen).state.messagePopup.visible = false := by
  decide!

/-- The amended C9 at the scenario of the specification: an empty store and the
texts "Ada", "1", "4.5" give the single record `{Ada, 1, 4.0}`. -/
theorem add_success_witness :
    (frame stofDecimal addPress addReady).state.manager.students =
      [⟨"Ada".toList, 1, [], [], 4⟩] ∧
    ((frame stofDecimal addPress addReady).state.manager.students =
      addReady.manager.students ++
        [⟨addReady.inputName.text, 1, addReady.inputGrade.text, addReady.inputDepartment.text,
          parseCgpa stofDecimal addReady.inputCGPA.text⟩] ∧
    (parseCgpa stofDecimal addReady.inputCGPA.text =
      match stofDecimal addReady.inputCGPA.text with
      | some v => max 0 (min v 4)
      | none => 0) ∧
    (0 ≤ parseCgpa stofDecimal addReady.inputCGPA.text ∧
      parseCgpa stofDecimal addReady.inputCGPA.text ≤ 4) ∧
    fieldTexts (frame stofDecimal addPress addReady).state =
      [[], [], [], addReady.inputSearch.text, [], []] ∧
    (frame stofDecimal addPress addReady).state.messagePopup.isVisible addPress.currentTime = true ∧
    (frame stofDecimal addPress addReady).state.messagePopup.text =
      "Student added successfully!".toList) :=
  ⟨by decide!,
    add_success stofDecimal addPress addReady 1 rfl (by decide!) rfl (by decide) (by decide)
      (by decide)⟩

theorem findByRoll_first (m : StudentManager) (r : Int) (pre post : List Student) (x : Student)
    (hs : m.students = pre ++ x :: post) (hpre : ∀ y ∈ pre, y.roll ≠ r) (hx : x.roll = r) :
    m.findByRoll r = some pre.length := by
  have hfp : List.findIdx (fun s : Student => s.roll == r) pre = pre.length := by
    rw [List.findIdx_eq_length]
    intro y hy
    simpa using hpre y hy
  have hidx : List.findIdx (fun s : Student => s.roll == r) (pre ++ x :: post) = pre.length := by
    rw [List.findIdx_append, hfp, if_neg (lt_irrefl _), List.findIdx_cons]
    simp [hx]
  unfold StudentManager.findByRoll
  simp only [hs, hidx]
  simp

theorem inButton_left (mx my : ℚ) (h : inButton mx my = true) : mx < panelX := by
  simp only [inButton, Rect.hit, pointInRect, btnAddRect, btnEditRect, btnDeleteRect, btnSaveRect,
    btnLoadRect, Bool.or_eq_true, Bool.and_eq_true, decide_eq_true_eq] at h
  unfold panelX SCR_W
  rcases h with (((h | h) | h) | h) | h <;> linarith [h.1.1.2]

/-- With the panel hidden, what a frame with a press on a button leaves in the
store, the texts, the toast, the selection and the save log is what the button
chain leaves, run on the state with the focus cleared. -/
theorem frame_button (stof : List Char → Option ℚ) (inp : Input) (s : State)
    (hpress : inp.mouseJustPressed = true) (hbtn : inButton inp.mx inp.my = true)
    (hpanel : s.detailsPanel.visible = false) :
    (frame stof inp s).state.manager =
      (buttonClicks stof inp.currentTime inp.fileStudents inp.mx inp.my
        (assignFocus inp.mx inp.my { s with lastClickTime := inp.currentTime })).manager ∧
    (frame stof inp s).state.messagePopup =
      (buttonClicks stof inp.currentTime inp.fileStudents inp.mx inp.my
        (assignFocus inp.mx inp.my { s with lastClickTime := inp.currentTime })).messagePopup ∧
    (frame stof inp s).state.selectedRolls =
      (buttonClicks stof inp.currentTime inp.fileStudents inp.mx inp.my
        (assignFocus inp.mx inp.my { s with lastClickTime := inp.currentTime })).selectedRolls ∧
    (frame stof inp s).state.saveLog =
      (buttonClicks stof inp.currentTime inp.fileStudents inp.mx inp.my
        (assignFocus inp.mx inp.my { s with lastClickTime := inp.currentTime })).saveLog := by
  have hy := inButton_bounds _ _ hbtn
  have hh : headerColumn inp.mx inp.my = none := headerColumn_none _ _ (Or.inr (by linarith))
  have hcs : clickStage stof inp s =
      buttonClicks stof inp.currentTime inp.fileStudents inp.mx inp.my
        (assignFocus inp.mx inp.my { s with lastClickTime := inp.currentTime }) := by
    unfold clickStage
    simp only []
    rw [if_pos (clickFlag_hidden inp s hpress hpanel), pressStage_hidden inp s hpress hpanel]
    unfold handleClick
    rw [headerClicks_miss _ _ _ hh]
  have hff : focusFlags (clickStage stof inp s) = [false, false, false, false, false, false] := by
    rw [clickStage_focusFlags, if_pos (clickFlag_hidden inp s hpress hpanel)]
    exact focusHits_outside _ _ (Or.inr (by linarith))
  have hks := keyStage_noFocus stof inp s hff
  rcases frame_state stof inp s with h | h <;> rw [h]
  · rw [hks, hcs]
    exact ⟨rfl, rfl, rfl, rfl⟩
  · rw [rowStage_none _ _ _ _ (by linarith), hks, hcs]
    simp

theorem btnDelete_inButton (mx my : ℚ) (h : btnDeleteRect.hit mx my = true) :
    inButton mx my = true := by
  simp [inButton, h]

theorem buttonClicks_delete (stof : List Char → Option ℚ) (t : ℚ) (fs : List Student)
    (mx my : ℚ) (s : State) (h : btnDeleteRect.hit mx my = true) :
    buttonClicks stof t fs mx my s = deleteHandler t s := by
  have ha : btnAddRect.hit mx my = false :=
    hit_apart btnDeleteRect btnAddRect mx my (by norm_num [btnDeleteRect, btnAddRect]) h
  have he : btnEditRect.hit mx my = false :=
    hit_apart btnDeleteRect btnEditRect mx my (by norm_num [btnDeleteRect, btnEditRect]) h
  simp [buttonClicks, ha, he, h]

theorem removeAll_students (rolls : List Int) (m : StudentManager) :
    (removeAll m rolls).students = m.students.filter (fun st => decide (st.roll ∉ rolls)) ∧
    (removeAll m rolls).sortState = m.sortState := by
  induction rolls generalizing m with
  | nil => simp [removeAll]
  | cons r rs ih =>
    have h := ih (m.removeByRoll r)
    unfold removeAll at h ⊢
    rw [List.foldl_cons, h.1, h.2]
    refine ⟨?_, rfl⟩
    simp only [StudentManager.removeByRoll, List.filter_filter]
    congr 1
    funext st
    by_cases h1 : st.roll = r <;> by_cases h2 : st.roll ∈ rs <;> simp [h1, h2]

/-! ### Search -/

theorem isPrefixOf_eq_take (a b : List Char) : a.isPrefixOf b = (b.take a.length == a) := by
  induction a generalizing b with
  | nil => simp
  | cons x xs ih =>
    cases b with
    | nil => simp
    | cons y ys =>
      simp only [List.isPrefixOf, List.length_cons, List.take_succ_cons, ih]
      by_cases h : x = y
      · subst h
        simp
      · have h1 : (x == y) = false := by simpa using h
        have h2 : (y == x) = false := by simpa using fun e : y = x => h e.symm
        rw [h1]
        simp [h2]

/-- The source's `find` on a needle is the specification's "contains". -/
theorem strFind_eq_containsSubstr (hay q : List Char) : strFind hay q = containsSubstr hay q := by
  unfold strFind containsSubstr
  congr 1
  funext t
  exact isPrefixOf_eq_take q t

/-! ### Case folding and decimal strings -/

theorem toLower_eq_asciiLowerCase (c : Char) : c.toLower = asciiLowerCase c := by
  unfold Char.toLower asciiLowerCase isAsciiUpper
  by_cases h : 65 ≤ c.toNat ∧ c.toNat ≤ 90
  · simp [h.1, h.2]
  · have h' : ¬ (c.toNat ≥ 65 ∧ c.toNat ≤ 90) := h
    rw [if_neg h']
    have : (decide (65 ≤ c.toNat) && decide (c.toNat ≤ 90)) = false := by
      simpa using h
    simp [this]

theorem lowerStr_eq_map (q : List Char) : lowerStr q = q.map asciiLowerCase := by
  unfold lowerStr
  congr 1
  funext c
  exact toLower_eq_asciiLowerCase c

theorem toNat_ofNat_small (n : Nat) (h : n < 55296) : (Char.ofNat n).toNat = n := by
  unfold Char.ofNat
  have hv : n.isValidChar := Or.inl h
  simp only [hv, dif_pos]
  rfl

theorem toNat_asciiLowerCase (c : Char) :
    (asciiLowerCase c).toNat = if isAsciiUpper c then c.toNat + 32 else c.toNat := by
  unfold asciiLowerCase
  split
  · rename_i h
    simp only [isAsciiUpper, Bool.and_eq_true, decide_eq_true_eq] at h
    exact toNat_ofNat_small _ (by omega)
  · rfl

theorem char_eq_iff_toNat (c d : Char) : c = d ↔ c.toNat = d.toNat := by
  constructor
  · intro h; rw [h]
  · intro h
    apply Char.eq_of_val_eq
    apply UInt32.eq_of_val_eq
    apply Fin.eq_of_val_eq
    exact h

theorem sameLetter_eq (c d : Char) :
    (asciiLowerCase c == asciiLowerCase d) = sameLetterIgnoringCase c d := by
  rw [Bool.eq_iff_iff]
  simp only [beq_iff_eq, sameLetterIgnoringCase, Bool.or_eq_true, Bool.and_eq_true]
  rw [char_eq_iff_toNat, toNat_asciiLowerCase, toNat_asciiLowerCase, char_eq_iff_toNat c d]
  cases hc : isAsciiUpper c <;> cases hd : isAsciiUpper d <;>
    simp only [Bool.false_eq_true, if_true, if_false, true_and, false_and, or_false, false_or,
      beq_iff_eq] <;>
    simp only [isAsciiUpper, Bool.and_eq_true, Bool.and_eq_false_iff, decide_eq_true_eq,
      decide_eq_false_iff_not, not_le] at hc hd <;>
    constructor <;> intro h <;> omega

theorem lowerStr_beq (a b : List Char) : (lowerStr a == lowerStr b) = equalIgnoringCase a b := by
  rw [lowerStr_eq_map, lowerStr_eq_map]
  induction a generalizing b with
  | nil => cases b <;> simp [equalIgnoringCase]
  | cons x xs ih =>
    cases b with
    | nil => simp [equalIgnoringCase]
    | cons y ys =>
      have h := ih ys
      simp only [List.map_cons, equalIgnoringCase, ← h, ← sameLetter_eq]
      rw [Bool.eq_iff_iff]
      simp

theorem digitChar_eq (d : Nat) (h : d < 10) : Nat.digitChar d = Char.ofNat (48 + d) := by
  interval_cases d <;> rfl

theorem toDigitsCore_eq (fuel n : Nat) (ds : List Char) :
    Nat.toDigitsCore 10 fuel n ds = specDecimalDigits fuel n ++ ds := by
  induction fuel generalizing n ds with
  | zero => rfl
  | succ k ih =>
    unfold Nat.toDigitsCore specDecimalDigits
    simp only []
    by_cases h : n < 10
    · have h0 : n / 10 = 0 := Nat.div_eq_of_lt h
      rw [if_pos h0, if_pos h, Nat.mod_eq_of_lt h, digitChar_eq n h]
      rfl
    · have h0 : ¬ n / 10 = 0 := by omega
      rw [if_neg h0, if_neg h, ih, digitChar_eq _ (Nat.mod_lt n (by norm_num))]
      simp

/-- The source's `to_string` writes the specification's decimal string. -/
theorem to_string_eq_specDecimal (n : Int) : to_string n = specDecimal n := by
  unfold to_string specDecimal Nat.toDigits
  split
  · rw [toDigitsCore_eq]; simp
  · rename_i h
    have hn : n.toNat = n.natAbs := by omega
    rw [toDigitsCore_eq, hn]; simp

/-- The source's `find` on the lower-cased strings is the specification's
"contains ignoring case". -/
theorem strFind_lower_eq (name q : List Char) :
    strFind (lowerStr name) (lowerStr q) = containsIgnoringCase name q := by
  unfold strFind containsIgnoringCase
  have ht : (lowerStr name).tails = name.tails.map lowerStr := by
    unfold lowerStr
    exact List.map_tails _
  rw [ht, List.any_map]
  congr 1
  funext t
  have hl : (lowerStr q).length = q.length := by simp [lowerStr]
  have htk : List.take q.length (lowerStr t) = lowerStr (t.take q.length) := by
    simp [lowerStr, List.map_take]
  simp only [Function.comp, isPrefixOf_eq_take, hl, htk, lowerStr_beq]

theorem searchMatch_eq_spec (q : List Char) (st : Student) :
    searchMatch (lowerStr q) st = specSearchMatch q st := by
  unfold searchMatch specSearchMatch
  rw [strFind_lower_eq, strFind_eq_containsSubstr, to_string_eq_specDecimal, lowerStr_eq_map]

theorem enum_filter_snd (l : List Student) (f : Student → Bool) :
    (l.enum.filter (fun p => f p.2)).map Prod.snd = l.filter f := by
  have h : (fun p : Nat × Student => f p.2) = f ∘ Prod.snd := rfl
  rw [h, ← List.filter_map, List.enum_map_snd]

/-! ### Sorting twice -/

/-- The store after `sortBy(c)` is ordered as a whole, not only pair by pair. -/
theorem sortBy_pairwise (m : StudentManager) (c : SortColumn) (hc : c ≠ SortColumn.NONE) :
    ((m.sortBy c).sortState.ascending = true →
      (m.sortBy c).students.Pairwise (fun a b => colLe c a b)) ∧
    ((m.sortBy c).sortState.ascending = false →
      (m.sortBy c).students.Pairwise (fun a b => colLe c b a)) := by
  rw [sortBy_students]
  cases c with
  | NONE => exact absurd rfl hc
  | ROLL =>
    cases (m.sortBy SortColumn.ROLL).sortState.ascending
    · exact ⟨by simp, fun _ => stdSort_desc (fun s => s.roll) _⟩
    · exact ⟨fun _ => stdSort_asc (fun s => s.roll) _, by simp⟩
  | NAME =>
    cases (m.sortBy SortColumn.NAME).sortState.ascending
    · exact ⟨by simp, fun _ => stdSort_desc (fun s => s.name) _⟩
    · exact ⟨fun _ => stdSort_asc (fun s => s.name) _, by simp⟩
  | GRADE =>
    cases (m.sortBy SortColumn.GRADE).sortState.ascending
    · exact ⟨by simp, fun _ => stdSort_desc (fun s => s.grade) _⟩
    · exact ⟨fun _ => stdSort_asc (fun s => s.grade) _, by simp⟩
  | DEPARTMENT =>
    cases (m.sortBy SortColumn.DEPARTMENT).sortState.ascending
    · exact ⟨by simp, fun _ => stdSort_desc (fun s => s.department) _⟩
    · exact ⟨fun _ => stdSort_asc (fun s => s.department) _, by simp⟩
  | CGPA =>
    cases (m.sortBy SortColumn.CGPA).sortState.ascending
    · exact ⟨by simp, fun _ => stdSort_desc (fun s => s.cgpa) _⟩
    · exact ⟨fun _ => stdSort_asc (fun s => s.cgpa) _, by simp⟩

/-- Two records that are each at most the other in a column have equal keys. -/
theorem colKeyEq_of_le (c : SortColumn) (a b : Student) (h1 : colLe c a b) (h2 : colLe c b a) :
    colKeyEq c a b := by
  cases c <;> simp only [colLe, colKeyEq] at * <;> exact le_antisymm h1 h2

theorem sortBy_perm (m : StudentManager) (c : SortColumn) :
    (m.sortBy c).students.Perm m.students := by
  rw [sortBy_students]
  cases c <;> cases (m.sortBy _).sortState.ascending <;>
    first | exact stdSort_perm _ _ | exact List.Perm.refl _

/-- Two arrangements of the same records, both strictly decreasing in a
column, are the same list. -/
theorem eq_of_perm_of_strict (c : SortColumn) (l1 l2 : List Student) (hp : l1.Perm l2)
    (h1 : l1.Pairwise (fun a b => colLe c b a ∧ ¬ colKeyEq c a b))
    (h2 : l2.Pairwise (fun a b => colLe c b a ∧ ¬ colKeyEq c a b)) : l1 = l2 := by
  have : IsAntisymm Student (fun a b => colLe c b a ∧ ¬ colKeyEq c a b) :=
    ⟨fun a b hab hba => absurd (colKeyEq_of_le c a b hba.1 hab.1) hab.2⟩
  exact List.eq_of_perm_of_sorted hp h1 h2

theorem colKeyEq_symm (c : SortColumn) (a b : Student) (h : colKeyEq c a b) : colKeyEq c b a := by
  cases c <;> simp only [colKeyEq] at * <;> exact h.symm

/-- The sort state that `sortBy(c)` leaves. -/
theorem sortBy_direction (m : StudentManager) (c : SortColumn) :
    (m.sortBy c).sortState.column = c ∧
    (m.sortBy c).sortState.ascending =
      (if m.sortState.column = c then !m.sortState.ascending else true) := by
  unfold StudentManager.sortBy
  by_cases h : m.sortState.column = c <;> simp [h]

/-! ### The two animations -/

/-- The opacity of a visible toast by cases on the elapsed time. -/
theorem getAlpha_visible (p : MessagePopup) (t : ℚ) (hv : p.visible = true) :
    p.getAlpha t =
      if 6 / 5 < t - p.showTime then 0
      else if 7 / 10 < t - p.showTime then (6 / 5 - (t - p.showTime)) / (1 / 2)
      else 1 := by
  have h : (6 : ℚ) / 5 - 1 / 2 = 7 / 10 := by norm_num
  unfold MessagePopup.getAlpha
  simp only [hv, Bool.not_true, Bool.false_eq_true, if_false, MessagePopup.duration, h, gt_iff_lt]

theorem getAlpha_hidden (p : MessagePopup) (t : ℚ) (hv : p.visible = false) :
    p.getAlpha t = 0 := by
  simp [MessagePopup.getAlpha, hv]

theorem getAlpha_bounds (p : MessagePopup) (t : ℚ) : 0 ≤ p.getAlpha t ∧ p.getAlpha t ≤ 1 := by
  cases hv : p.visible
  · rw [getAlpha_hidden p t hv]; norm_num
  · rw [getAlpha_visible p t hv]
    split_ifs with h1 h2
    · norm_num
    · constructor
      · apply div_nonneg _ (by norm_num)
        linarith [not_lt.mp h1]
      · rw [div_le_iff₀ (by norm_num)]
        linarith
    · norm_num

theorem getAlpha_antitone (p : MessagePopup) (t1 t2 : ℚ) (h : t1 ≤ t2) :
    p.getAlpha t2 ≤ p.getAlpha t1 := by
  cases hv : p.visible
  · rw [getAlpha_hidden p t1 hv, getAlpha_hidden p t2 hv]
  · rw [getAlpha_visible p t1 hv, getAlpha_visible p t2 hv]
    split_ifs with a1 a2 a3 a4 a5 a6 <;> try norm_num
    all_goals linarith

theorem smoothstep_bounds (u : ℚ) (h0 : 0 ≤ u) (h1 : u ≤ 1) :
    0 ≤ smoothstep u ∧ smoothstep u ≤ 1 := by
  unfold smoothstep
  constructor
  · nlinarith [mul_nonneg h0 h0, mul_nonneg (mul_nonneg h0 h0) (sub_nonneg.mpr h1)]
  · nlinarith [mul_nonneg (mul_self_nonneg (1 - u)) h0, mul_self_nonneg (1 - u)]

/-! ### The Roll box -/

theorem rollText_of_fieldTexts (a b : State) (h : fieldTexts a = fieldTexts b) :
    a.inputRoll.text = b.inputRoll.text := by
  simp only [fieldTexts, List.cons.injEq] at h
  exact h.2.1

theorem digitsAndMinus_dropLast (t : List Char) (h : digitsAndMinus t) :
    digitsAndMinus t.dropLast :=
  fun c hc => h c (List.dropLast_subset t hc)

theorem digitsAndMinus_append_filter (t buf : List Char) (h : digitsAndMinus t) :
    digitsAndMinus (t ++ buf.filter (fun c => isDigitC c || c == '-')) := by
  intro c hc
  rcases List.mem_append.mp hc with hc | hc
  · exact h c hc
  · have := (List.mem_filter.mp hc).2
    simpa using this

theorem addHandler_rollText (stof : List Char → Option ℚ) (t : ℚ) (s : State)
    (h : digitsAndMinus s.inputRoll.text) : digitsAndMinus (addHandler stof t s).inputRoll.text := by
  unfold addHandler
  simp only []
  split
  · intro c hc
    simp at hc
  · exact h

theorem buttonClicks_rollText (stof : List Char → Option ℚ) (t : ℚ) (fs : List Student)
    (mx my : ℚ) (s : State) (h : digitsAndMinus s.inputRoll.text) :
    digitsAndMinus (buttonClicks stof t fs mx my s).inputRoll.text := by
  unfold buttonClicks
  split_ifs
  · exact addHandler_rollText stof t s h
  · rw [rollText_of_fieldTexts _ _ (editHandler_fieldTexts stof t s)]; exact h
  · rw [rollText_of_fieldTexts _ _ (deleteHandler_fieldTexts t s)]; exact h
  · exact h
  · exact h
  · exact h

theorem keyboardInput_rollText (buf : List Char) (s : State)
    (h : digitsAndMinus s.inputRoll.text) :
    digitsAndMinus (keyboardInput buf s).inputRoll.text := by
  unfold keyboardInput
  split_ifs
  any_goals exact h
  exact digitsAndMinus_append_filter _ _ h

theorem handleBackspace_rollText (s : State) (h : digitsAndMinus s.inputRoll.text) :
    digitsAndMinus (handleBackspace s).inputRoll.text := by
  unfold handleBackspace
  split_ifs
  any_goals exact h
  exact digitsAndMinus_dropLast _ h

theorem keyStage_rollText (stof : List Char → Option ℚ) (inp : Input) (s : State)
    (h : digitsAndMinus s.inputRoll.text) :
    digitsAndMinus (keyStage stof inp s).inputRoll.text := by
  have h2 : digitsAndMinus (pressStage inp s).inputRoll.text := by
    rw [rollText_of_fieldTexts _ _ (pressStage_fieldTexts inp s)]; exact h
  have h3 : digitsAndMinus (clickStage stof inp s).inputRoll.text := by
    unfold clickStage
    simp only []
    split
    · unfold handleClick
      apply buttonClicks_rollText
      rw [rollText_of_fieldTexts _ _ (headerClicks_fieldTexts _ _ _),
        rollText_of_fieldTexts _ _ (assignFocus_fieldTexts _ _ _)]
      exact h2
    · exact h2
  unfold keyStage
  simp only []
  split
  · exact handleBackspace_rollText _ (keyboardInput_rollText _ _ h3)
  · exact keyboardInput_rollText _ _ h3

theorem frame_rollText (stof : List Char → Option ℚ) (inp : Input) (s : State)
    (h : digitsAndMinus s.inputRoll.text) :
    digitsAndMinus (frame stof inp s).state.inputRoll.text := by
  have hk := keyStage_rollText stof inp s h
  rcases frame_state stof inp s with e | e <;> rw [e]
  · exact hk
  · rw [rollText_of_fieldTexts _ _ (rowStage_fieldTexts _ _ _ _),
      rollText_of_fieldTexts _ _ (escapeStage_fieldTexts _ _)]
    exact hk

/-! ## The claims on the store, search, sorting and animations -/

/-- C12 as amended. With the details panel hidden and a non-empty selection, a
press on Delete leaves the store equal to the old store without the records
whose roll is selected (the others in their old order), empties the selection,
and calls `save` on the resulting store. -/
theorem delete_selected (stof : List Char → Option ℚ) (inp : Input) (s : State)
    (hpress : inp.mouseJustPressed = true) (hdel : btnDeleteRect.hit inp.mx inp.my = true)
    (hpanel : s.detailsPanel.visible = false) (hsel : s.selectedRolls ≠ []) :
    (frame stof inp s).state.manager.students =
      s.manager.students.filter (fun st => decide (st.roll ∉ s.selectedRolls)) ∧
    (frame stof inp s).state.selectedRolls = [] ∧
    (frame stof inp s).state.saveLog = (frame stof inp s).state.manager.students :: s.saveLog := by
  obtain ⟨hm, _, hsl, hlog⟩ := frame_button stof inp s hpress (btnDelete_inButton _ _ hdel) hpanel
  rw [buttonClicks_delete _ _ _ _ _ _ hdel] at hm hsl hlog
  have hne : s.selectedRolls.isEmpty = false := by
    cases hs : s.selectedRolls with
    | nil => exact absurd hs hsel
    | cons c cs => rfl
  have hd : ∀ s1 : State, s1.selectedRolls = s.selectedRolls → s1.manager = s.manager →
      s1.saveLog = s.saveLog →
      (deleteHandler inp.currentTime s1).manager = removeAll s.manager s.selectedRolls ∧
      (deleteHandler inp.currentTime s1).selectedRolls = [] ∧
      (deleteHandler inp.currentTime s1).saveLog =
        (removeAll s.manager s.selectedRolls).students :: s.saveLog := by
    intro s1 h1 h2 h3
    unfold deleteHandler
    simp only [h1, h2, h3, hne, Bool.not_false, if_true]
    exact ⟨trivial, trivial, trivial⟩
  obtain ⟨dm, ds, dl⟩ := hd (assignFocus inp.mx inp.my { s with lastClickTime := inp.currentTime })
    rfl rfl rfl
  rw [hm, hsl, hlog, dm, ds, dl]
  exact ⟨(removeAll_students _ _).1, rfl, rfl⟩

/-- The claim C12 fails: the selection is `[5, 9]` and the store has the rolls
5, 8, 9, but the details panel is visible, so its close test consumes the press
on Delete; the store and the selection are as before and nothing is saved. -/
theorem delete_blocked_by_open_panel :
    deleteReadyPanelOpen.selectedRolls = [5, 9] ∧
    deletePress.mouseJustPressed = true ∧
    btnDeleteRect.hit deletePress.mx deletePress.my = true ∧
    (frame stofDecimal deletePress deleteReadyPanelOpen).state.manager.students = [bob, dee, cy] ∧
    (frame stofDecimal deletePress deleteReadyPanelOpen).state.selectedRolls = [5, 9] ∧
    (frame stofDecimal deletePress deleteReadyPanelOpen).state.saveLog = [] := by
  decide!

/-- The amended C12 at the scenario of the specification: the selection
`[5, 9]` and a store with the rolls 5, 8, 9 leave the record with roll 8 and an
empty selection. -/
theorem delete_selected_witness :
    deletePress.mouseJustPressed = true ∧ deleteReady.selectedRolls = [5, 9] ∧
    deleteReady.manager.students.map (fun st => st.roll) = [5, 8, 9] ∧
    (frame stofDecimal deletePress deleteReady).state.manager.students = [dee] ∧
    ((frame stofDecimal deletePress deleteReady).state.manager.students =
        deleteReady.manager.students.filter (fun st => decide (st.roll ∉ deleteReady.selectedRolls)) ∧
      (frame stofDecimal deletePress deleteReady).state.selectedRolls = [] ∧
      (frame stofDecimal deletePress deleteReady).state.saveLog =
        (frame stofDecimal deletePress deleteReady).state.manager.students :: deleteReady.saveLog) :=
  ⟨rfl, rfl, by decide!, by decide!,
    delete_selected stofDecimal deletePress deleteReady rfl (by decide!) rfl (by decide)⟩

/-- C13 as amended. When no record of the store has the roll of `s`, the lookup
`findByRoll(s.roll)` after `add(s)` returns the added element, equal to `s` in
all five fields. -/
theorem find_after_add (m : StudentManager) (s : Student)
    (hnew : ∀ x ∈ m.students, x.roll ≠ s.roll) :
    (m.add s).findByRoll s.roll = some m.students.length ∧
    (m.add s).students[m.students.length]? = some s := by
  constructor
  · exact findByRoll_first (m.add s) s.roll m.students [] s rfl hnew rfl
  · simp [StudentManager.add]

/-- The claim C13 fails: the store holds `ada` with roll 7; after `add(eve)`,
a record with roll 7 too, `findByRoll(7)` returns the element at index 0, which
is `ada` and differs from `eve`. -/
theorem find_after_add_returns_older :
    (0 : Int) ≤ eve.roll ∧
    (({ students := [ada], sortState := ⟨SortColumn.NONE, true⟩ } : StudentManager).add eve).findByRoll
      eve.roll = some 0 ∧
    (({ students := [ada], sortState := ⟨SortColumn.NONE, true⟩ } : StudentManager).add eve).students[0]?
      = some ada ∧
    ada ≠ eve := by
  decide!

/-- The amended C13 at the store `[ada, bob]` and the record `cy`. -/
theorem find_after_add_witness :
    (∀ x ∈ ({ students := [ada, bob], sortState := ⟨SortColumn.NONE, true⟩ } : StudentManager).students,
      x.roll ≠ cy.roll) ∧
    (({ students := [ada, bob], sortState := ⟨SortColumn.NONE, true⟩ } : StudentManager).add cy).findByRoll
      cy.roll = some 2 ∧
    (({ students := [ada, bob], sortState := ⟨SortColumn.NONE, true⟩ } : StudentManager).add cy).students[2]?
      = some cy :=
  ⟨by decide!,
    find_after_add { students := [ada, bob], sortState := ⟨SortColumn.NONE, true⟩ } cy (by decide!)⟩

/-- C14. The records of the visible list are, in store order, exactly the
records of the store whose name contains the query ignoring ASCII letter case or
whose decimal roll string contains the lower-cased query; with an empty search
text they are the whole store. Each pointer of the list is the store position of
its record. -/
theorem search_filter (s : State) :
    (visibleList s).map Prod.snd =
      (if s.inputSearch.text = [] then s.manager.students
       else s.manager.students.filter (specSearchMatch s.inputSearch.text)) ∧
    (∀ p ∈ visibleList s, s.manager.students[p.1]? = some p.2) := by
  constructor
  · unfold visibleList
    cases hq : s.inputSearch.text with
    | nil => simp
    | cons c cs =>
      simp only [List.isEmpty_cons, Bool.not_false, if_true, StudentManager.search]
      rw [if_neg (by simp)]
      have hf : (fun p : Nat × Student => searchMatch (lowerStr (c :: cs)) p.2) =
          (fun p : Nat × Student => specSearchMatch (c :: cs) p.2) := by
        funext p
        exact searchMatch_eq_spec _ _
      rw [hf, enum_filter_snd]
  · intro p hp
    have hmem : p ∈ s.manager.students.enum := by
      unfold visibleList at hp
      split at hp
      · exact (List.mem_filter.mp hp).1
      · exact hp
    obtain ⟨i, x⟩ := p
    exact List.mk_mem_enum_iff_getElem?.mp hmem

/-- C14 at the store `[ada, bob, cy]`: the query "AD" finds "Ada" across the
letter case, "b" finds "Bob", "9" finds the record with roll 9 by its decimal
string, and the specification's filter gives the same lists; an empty query
shows the whole store. -/
theorem search_filter_witness :
    visibleList searchByName = [(0, ada)] ∧
    visibleList searchSmallLetter = [(1, bob)] ∧
    visibleList searchByRoll = [(2, cy)] ∧
    (visibleList (initState [ada, bob, cy])).map Prod.snd = [ada, bob, cy] ∧
    [ada, bob, cy].filter (specSearchMatch "AD".toList) = [ada] ∧
    [ada, bob, cy].filter (specSearchMatch "9".toList) = [cy] ∧
    (visibleList searchByName).map Prod.snd =
      (if searchByName.inputSearch.text = [] then searchByName.manager.students
       else searchByName.manager.students.filter (specSearchMatch searchByName.inputSearch.text)) ∧
    (visibleList searchByRoll).map Prod.snd =
      (if searchByRoll.inputSearch.text = [] then searchByRoll.manager.students
       else searchByRoll.manager.students.filter (specSearchMatch searchByRoll.inputSearch.text)) :=
  ⟨by decide!, by decide!, by decide!, by decide!, by decide!, by decide!,
    (search_filter searchByName).1, (search_filter searchByRoll).1⟩

/-- C15. For a store whose active sort column is not `c` and whose records have
pairwise distinct keys in column `c`, the first `sortBy(c)` sorts ascending, the
second descending, and the store after the second call is the exact reverse of
the store after the first. -/
theorem sortBy_twice (m : StudentManager) (c : SortColumn)
    (hcol : m.sortState.column ≠ c)
    (hdist : m.students.Pairwise (fun a b => ¬ colKeyEq c a b)) :
    ((m.sortBy c).sortBy c).students = (m.sortBy c).students.reverse ∧
    (m.sortBy c).sortState.ascending = true ∧
    ((m.sortBy c).sortBy c).sortState.ascending = false := by
  have hs1 := sortBy_direction m c
  have hs2 := sortBy_direction (m.sortBy c) c
  have hasc1 : (m.sortBy c).sortState.ascending = true := by
    rw [hs1.2, if_neg hcol]
  have hasc2 : ((m.sortBy c).sortBy c).sortState.ascending = false := by
    rw [hs2.2, if_pos hs1.1, hasc1]; rfl
  refine ⟨?_, hasc1, hasc2⟩
  have hsymm : ∀ {x y : Student}, ¬ colKeyEq c x y → ¬ colKeyEq c y x :=
    fun h h' => h (colKeyEq_symm c _ _ h')
  have hp1 := sortBy_perm m c
  have hp2 := sortBy_perm (m.sortBy c) c
  have hd1 : (m.sortBy c).students.Pairwise (fun a b => ¬ colKeyEq c a b) :=
    (hp1.pairwise_iff hsymm).mpr hdist
  have hd2 : ((m.sortBy c).sortBy c).students.Pairwise (fun a b => ¬ colKeyEq c a b) :=
    (hp2.pairwise_iff hsymm).mpr hd1
  by_cases hc : c = SortColumn.NONE
  · -- every record ties in `NONE`, so there is at most one record
    subst hc
    have hlen : ∀ l : List Student, l.Pairwise (fun a b => ¬ colKeyEq SortColumn.NONE a b) →
        l.reverse = l := by
      intro l hl
      cases l with
      | nil => rfl
      | cons x xs =>
        cases xs with
        | nil => rfl
        | cons y ys =>
          rw [List.pairwise_cons] at hl
          exact absurd trivial (hl.1 y (List.mem_cons_self _ _))
    rw [hlen _ hd1]
    rw [sortBy_students]
  · have hsorted1 := (sortBy_pairwise m c hc).1 hasc1
    have hsorted2 := (sortBy_pairwise (m.sortBy c) c hc).2 hasc2
    apply eq_of_perm_of_strict c _ _ (hp2.trans (List.reverse_perm _).symm)
    · exact hsorted2.and hd2
    · rw [List.pairwise_reverse]
      exact (hsorted1.and hd1).imp (fun h => ⟨h.1, hsymm h.2⟩)

/-- C15 at the store `[ada, bob, cy]` sorted twice by CGPA. -/
theorem sortBy_twice_witness :
    threeRecords.sortState.column ≠ SortColumn.CGPA ∧
    (threeRecords.sortBy SortColumn.CGPA).students = [cy, ada, bob] ∧
    ((threeRecords.sortBy SortColumn.CGPA).sortBy SortColumn.CGPA).students = [bob, ada, cy] ∧
    (((threeRecords.sortBy SortColumn.CGPA).sortBy SortColumn.CGPA).students =
        (threeRecords.sortBy SortColumn.CGPA).students.reverse ∧
      (threeRecords.sortBy SortColumn.CGPA).sortState.ascending = true ∧
      ((threeRecords.sortBy SortColumn.CGPA).sortBy SortColumn.CGPA).sortState.ascending = false) :=
  ⟨by decide, by decide!, by decide!,
    sortBy_twice threeRecords SortColumn.CGPA (by decide) (by
      simp only [threeRecords, colKeyEq, ada, bob, cy, List.pairwise_cons, List.mem_cons,
        List.mem_singleton, List.not_mem_nil, List.Pairwise.nil, forall_eq_or_imp, forall_eq]
      norm_num)⟩

/-- C16. For a toast that is shown (its `visible` member set, `showTime = s`,
duration 1.2) and a sample time `t` with `e = t - s`: the opacity is 1 when
`e < 0.7`, is `(1.2 - e) / 0.5` when `0.7 ≤ e ≤ 1.2`, and is 0 with `isVisible`
false when `e > 1.2`; it lies in `[0, 1]` and never grows with `t`. A toast
that was never shown has opacity 0 and is not visible at any time. -/
theorem toast_opacity (p : MessagePopup) (t : ℚ) (hv : p.visible = true) :
    (t - p.showTime < 7 / 10 → p.getAlpha t = 1) ∧
    (7 / 10 ≤ t - p.showTime → t - p.showTime ≤ 6 / 5 →
      p.getAlpha t = (6 / 5 - (t - p.showTime)) / (1 / 2)) ∧
    (6 / 5 < t - p.showTime → p.getAlpha t = 0 ∧ p.isVisible t = false) ∧
    (0 ≤ p.getAlpha t ∧ p.getAlpha t ≤ 1) ∧
    (∀ t2 : ℚ, t ≤ t2 → p.getAlpha t2 ≤ p.getAlpha t) ∧
    (∀ t0 : ℚ, MessagePopup.new.getAlpha t0 = 0 ∧ MessagePopup.new.isVisible t0 = false) := by
  refine ⟨?_, ?_, ?_, getAlpha_bounds p t, fun t2 h => getAlpha_antitone p t t2 h, ?_⟩
  · intro h
    rw [getAlpha_visible p t hv, if_neg (by linarith), if_neg (by linarith)]
  · intro h1 h2
    rw [getAlpha_visible p t hv, if_neg (by linarith)]
    split_ifs with h3
    · rfl
    · have he : t - p.showTime = 7 / 10 := le_antisymm (not_lt.mp h3) h1
      rw [he]; norm_num
  · intro h
    constructor
    · rw [getAlpha_visible p t hv, if_pos h]
    · simp [MessagePopup.isVisible, hv, MessagePopup.duration, h]
  · intro t0
    exact ⟨getAlpha_hidden _ _ rfl, rfl⟩

/-- C16 at a toast shown at time 2 and sampled at time 3, in the fade. -/
theorem toast_opacity_witness :
    (MessagePopup.new.show "Student added successfully!".toList 2).visible = true ∧
    (MessagePopup.new.show "Student added successfully!".toList 2).getAlpha 3 = 2 / 5 ∧
    (0 ≤ (MessagePopup.new.show "Student added successfully!".toList 2).getAlpha 3 ∧
      (MessagePopup.new.show "Student added successfully!".toList 2).getAlpha 3 ≤ 1) :=
  ⟨rfl, by decide!,
    (toast_opacity (MessagePopup.new.show "Student added successfully!".toList 2) 3 rfl).2.2.2.1⟩

/-- C17 as amended. For a visible panel with animation start `a` and every
sample time `t ≥ a`, `getSlideProgress(t)` is
`smoothstep(clamp((t - a) / 0.3, 0, 1))` and lies in `[0, 1]`; for a hidden
panel it is 0 at every time. -/
theorem slide_progress (p : DetailsPanel) (t : ℚ) (hv : p.visible = true)
    (ht : p.animationStart ≤ t) :
    p.getSlideProgress t = smoothstep (clamp01 ((t - p.animationStart) / (3 / 10))) ∧
    (0 ≤ p.getSlideProgress t ∧ p.getSlideProgress t ≤ 1) ∧
    (∀ (q : DetailsPanel) (t0 : ℚ), q.visible = false → q.getSlideProgress t0 = 0) := by
  have hu0 : 0 ≤ (t - p.animationStart) / (3 / 10) :=
    div_nonneg (sub_nonneg.mpr ht) (by norm_num)
  have heq : p.getSlideProgress t = smoothstep (clamp01 ((t - p.animationStart) / (3 / 10))) := by
    unfold DetailsPanel.getSlideProgress
    simp only [hv, Bool.not_true, Bool.false_eq_true, if_false, DetailsPanel.animationDuration]
    by_cases hd : t - p.animationStart ≥ 3 / 10
    · rw [if_pos hd]
      have hu1 : 1 ≤ (t - p.animationStart) / (3 / 10) := by
        rw [le_div_iff₀ (by norm_num)]; linarith
      simp only [clamp01, min_eq_right hu1]
      norm_num [smoothstep]
    · rw [if_neg hd]
      have hu1 : (t - p.animationStart) / (3 / 10) ≤ 1 := by
        rw [div_le_iff₀ (by norm_num)]; linarith [not_le.mp hd]
      simp only [clamp01, min_eq_left hu1, max_eq_right hu0, smoothstep]
      ring
  refine ⟨heq, ?_, ?_⟩
  · rw [heq]
    apply smoothstep_bounds
    · exact le_max_left _ _
    · exact max_le (by norm_num) (min_le_right _ _)
  · intro q t0 hq
    simp [DetailsPanel.getSlideProgress, hq]

/-- The claim C17 fails: for the visible panel started at time 1 and the sample
time 0.7 the code returns 5, where the clamped smoothstep is 0. -/
theorem slide_progress_before_start :
    slidePanel.visible = true ∧ slidePanel.animationStart = 1 ∧
    slidePanel.getSlideProgress (7 / 10) = 5 ∧
    smoothstep (clamp01 ((7 / 10 - slidePanel.animationStart) / (3 / 10))) = 0 ∧
    ¬ (slidePanel.getSlideProgress (7 / 10) ≤ 1) := by
  decide!

/-- The amended C17 at the panel started at time 1, sampled at time 1.15. -/
theorem slide_progress_witness :
    slidePanel.visible = true ∧ slidePanel.animationStart ≤ 23 / 20 ∧
    slidePanel.getSlideProgress (23 / 20) = 1 / 2 ∧
    slidePanel.getSlideProgress (23 / 20) =
      smoothstep (clamp01 ((23 / 20 - slidePanel.animationStart) / (3 / 10))) :=
  ⟨rfl, by decide!, by decide!, (slide_progress slidePanel (23 / 20) rfl (by decide!)).1⟩

/-- C18 as amended. `removeByRoll(r)` deletes every record whose roll is `r`,
the first and all later ones, and keeps every other record, in the old order;
the sort state is untouched. -/
theorem removeByRoll_all (m : StudentManager) (r : Int) :
    (∀ x ∈ (m.removeByRoll r).students, x.roll ≠ r) ∧
    (∀ x ∈ m.students, x.roll ≠ r → x ∈ (m.removeByRoll r).students) ∧
    (m.removeByRoll r).students.Sublist m.students ∧
    (∀ x : Student, x.roll ≠ r → (m.removeByRoll r).students.count x = m.students.count x) ∧
    (m.removeByRoll r).sortState = m.sortState := by
  unfold StudentManager.removeByRoll
  refine ⟨?_, ?_, ?_, ?_, rfl⟩
  · intro x hx
    simpa using (List.mem_filter.mp hx).2
  · intro x hx hr
    exact List.mem_filter.mpr ⟨hx, by simpa using hr⟩
  · exact List.filter_sublist _
  · intro x hr
    exact List.count_filter (by simpa using hr)

/-- The claim C18 fails: in the store `[ada, bob, eve]`, where `ada` and `eve`
share the roll 7, `removeByRoll(7)` leaves `[bob]`; the later record `eve` is
deleted as well. -/
theorem removeByRoll_deletes_later_match :
    twinStore.students = [ada, bob, eve] ∧ ada.roll = 7 ∧ eve.roll = 7 ∧
    (twinStore.removeByRoll 7).students = [bob] ∧
    eve ∉ (twinStore.removeByRoll 7).students := by
  decide!

/-- C19. The code at the failing input: an empty selection, the roll text "99"
and a store whose only record has roll 7. The press on Delete leaves the store
as it was, yet it calls `save` and shows the toast "Student deleted
successfully!". -/
theorem delete_unknown_roll_shows_toast :
    deleteUnknown.selectedRolls = [] ∧
    deleteUnknown.detailsPanel.visible = false ∧
    stoi deleteUnknown.inputRoll.text = some 99 ∧
    (∀ x ∈ deleteUnknown.manager.students, x.roll ≠ 99) ∧
    deleteUnknown.messagePopup.visible = false ∧
    (frame stofDecimal deletePress deleteUnknown).state.manager.students =
      deleteUnknown.manager.students ∧
    (frame stofDecimal deletePress deleteUnknown).state.messagePopup =
      { text := "Student deleted successfully!".toList, showTime := 5, visible := true } ∧
    (frame stofDecimal deletePress deleteUnknown).state.saveLog = [[ada]] := by
  decide!

/-- C20 as amended. In every reachable state the text of the Roll box consists
only of decimal digits and minus signs; while the box receives the typed
characters, a digit or a `-` is appended wherever it is typed and every other
character is dropped, and backspace removes the last character. -/
theorem roll_text_filter (stof : List Char → Option ℚ) (s : State) (h : Reachable stof s) :
    digitsAndMinus s.inputRoll.text ∧
    (∀ buf : List Char, buf ≠ [] → s.inputName.focused = false → s.inputRoll.focused = true →
      (keyboardInput buf s).inputRoll.text =
        s.inputRoll.text ++ buf.filter (fun c => isDigitC c || c == '-')) ∧
    (s.inputName.focused = false → s.inputRoll.focused = true →
      (handleBackspace s).inputRoll.text = s.inputRoll.text.dropLast) := by
  refine ⟨?_, ?_, ?_⟩
  · induction h with
    | init loaded => intro c hc; simp [initState] at hc
    | step inp s _ _ ih => exact frame_rollText stof inp s ih
  · intro buf hb hn hr
    have hbe : buf.isEmpty = false := by
      cases buf with
      | nil => exact absurd rfl hb
      | cons c cs => rfl
    simp [keyboardInput, hbe, hn, hr]
  · intro hn hr
    cases ht : s.inputRoll.text with
    | nil =>
      rw [← ht]
      unfold handleBackspace
      split_ifs <;> simp_all
    | cons c cs => simp [handleBackspace, hn, hr, ht]

/-- The claim C20 fails: from the initial state, a click on the Roll box and
then the typed characters "1-2" leave the text "1-2", whose minus sign is not
at position 0. -/
theorem roll_text_inner_minus :
    Reachable stofDecimal
      (frame stofDecimal typeInput (frame stofDecimal rollPress (initState [])).state).state ∧
    (frame stofDecimal rollPress (initState [])).state.inputRoll.focused = true ∧
    (frame stofDecimal rollPress (initState [])).state.inputRoll.text = [] ∧
    (frame stofDecimal typeInput (frame stofDecimal rollPress (initState [])).state).state.inputRoll.text
      = "1-2".toList ∧
    leadingMinusDigits
      (frame stofDecimal typeInput
        (frame stofDecimal rollPress (initState [])).state).state.inputRoll.text = false :=
  ⟨Reachable.step typeInput _
      (Reachable.step rollPress (initState []) (Reachable.init []) (by decide!)) (by decide!),
    by decide!, by decide!, by decide!, by decide!⟩

/-- The amended C20 at the state reached by a click on the Roll box. -/
theorem roll_text_filter_witness :
    Reachable stofDecimal (frame stofDecimal rollPress (initState [])).state ∧
    digitsAndMinus (frame stofDecimal rollPress (initState [])).state.inputRoll.text ∧
    (keyboardInput "a1-b2".toList (frame stofDecimal rollPress (initState [])).state).inputRoll.text
      = "1-2".toList :=
  ⟨Reachable.step rollPress (initState []) (Reachable.init []) (by decide!),
    (roll_text_filter stofDecimal (frame stofDecimal rollPress (initState [])).state
      (Reachable.step rollPress (initState []) (Reachable.init []) (by decide!))).1,
    by decide!⟩

/-! ### Clicks while the details panel is open -/

/-- Every button rectangle ends at `x = 600` or left of it. -/
theorem inButton_x (mx my : ℚ) (h : inButton mx my = true) : mx ≤ 600 := by
  simp only [inButton, Rect.hit, pointInRect, btnAddRect, btnEditRect, btnDeleteRect, btnSaveRect,
    btnLoadRect, Bool.or_eq_true, Bool.and_eq_true, decide_eq_true_eq] at h
  rcases h with (((h | h) | h) | h) | h <;> linarith [h.1.1.2]

/-- With the panel visible, a click that survives the close test is in no
button rectangle. -/
theorem clickFlag_open_not_inButton (inp : Input) (s : State)
    (hvis : s.detailsPanel.visible = true) (hc : clickFlag inp s = true) :
    inButton inp.mx inp.my = false := by
  by_contra hb
  have hin : inButton inp.mx inp.my = true := by simpa using hb
  have hleft := inButton_left _ _ hin
  simp [clickFlag, panelConsumes, hvis, hleft] at hc

theorem headerClicks_perm (mx my : ℚ) (s : State) :
    (headerClicks mx my s).manager.students.Perm s.manager.students := by
  unfold headerClicks
  split
  · exact sortBy_perm _ _
  · exact List.Perm.refl _

theorem rowStage_saveLog (inp : Input) (c d : Bool) (s : State) :
    (rowStage inp c d s).saveLog = s.saveLog := by
  unfold rowStage; cases c <;> cases d <;> simp

/-- With the panel visible the click stage is the stage without the button
chain. -/
theorem clickStage_open (stof : List Char → Option ℚ) (inp : Input) (s : State)
    (hvis : s.detailsPanel.visible = true) :
    clickStage stof inp s =
      if clickFlag inp s then headerClicks inp.mx inp.my (assignFocus inp.mx inp.my (pressStage inp s))
      else pressStage inp s := by
  unfold clickStage
  simp only []
  split
  · rename_i hc
    unfold handleClick
    rw [buttonClicks_miss _ _ _ _ _ _ (clickFlag_open_not_inButton inp s hvis hc)]
  · rfl

/-- What a frame leaves of the store, the toast and the save log is what the
click stage leaves. -/
theorem frame_store (stof : List Char → Option ℚ) (inp : Input) (s : State) :
    (frame stof inp s).state.manager = (clickStage stof inp s).manager ∧
    (frame stof inp s).state.messagePopup = (clickStage stof inp s).messagePopup ∧
    (frame stof inp s).state.saveLog = (clickStage stof inp s).saveLog := by
  have hk : (keyStage stof inp s).manager = (clickStage stof inp s).manager ∧
      (keyStage stof inp s).messagePopup = (clickStage stof inp s).messagePopup ∧
      (keyStage stof inp s).saveLog = (clickStage stof inp s).saveLog := by
    unfold keyStage
    simp only []
    split <;> simp
  rcases frame_state stof inp s with h | h <;> rw [h]
  · exact hk
  · simpa [rowStage_saveLog] using hk

/-- The two members of the panel go together in every reachable state: a
panel that holds a target is visible. -/
theorem reachable_panel (stof : List Char → Option ℚ) (s : State) (h : Reachable stof s) :
    s.detailsPanel.visible = false → s.detailsPanel.currentStudent = none := by
  induction h with
  | init loaded => intro _; rfl
  | step inp s _ _ ih =>
    have hk : (keyStage stof inp s).detailsPanel.visible = false →
        (keyStage stof inp s).detailsPanel.currentStudent = none := by
      rw [keyStage_detailsPanel, pressStage_detailsPanel]
      split
      · intro _; rfl
      · exact ih
    have he : (escapeStage inp (keyStage stof inp s)).detailsPanel.visible = false →
        (escapeStage inp (keyStage stof inp s)).detailsPanel.currentStudent = none := by
      unfold escapeStage
      split
      · intro _; rfl
      · exact hk
    rcases frame_state stof inp s with e | e <;> rw [e]
    · exact hk
    · unfold rowStage
      cases clickFlag inp s <;> cases doubleClickFlag inp s <;>
        simp only [Bool.false_eq_true, if_false, if_true, rowDoubleClick_detailsPanel]
      · exact he
      · exact he
      · unfold rowClick
        split
        · intro hv
          simp only [DetailsPanel.show] at hv
          split at hv <;> simp_all
        · exact he
      · unfold rowClick
        split
        · intro hv
          simp only [DetailsPanel.show] at hv
          split at hv <;> simp_all
        · exact he

/-- C21. While the details panel is open (it is visible; or the state is
reachable and the panel holds a target, which makes it visible), a frame runs
none of the five button handlers, whatever the pointer position: every button
rectangle lies at `x ≤ 600 < 650`, so a press on a button is consumed by the
close test, and a press that is not consumed is on no button. The click stage
is the stage without the button chain, no toast is shown, nothing is saved, and
the store keeps its records (a header click may reorder them), so their number
is unchanged. -/
theorem no_button_handler_while_panel_open (stof : List Char → Option ℚ) (inp : Input)
    (s : State)
    (hopen : s.detailsPanel.visible = true ∨
      (Reachable stof s ∧ s.detailsPanel.currentStudent ≠ none)) :
    (∀ mx my : ℚ, inButton mx my = true → mx ≤ 600 ∧ mx < panelX) ∧
    (inButton inp.mx inp.my = true → clickFlag inp s = false) ∧
    (clickFlag inp s = true → inButton inp.mx inp.my = false) ∧
    (clickStage stof inp s =
      if clickFlag inp s then
        headerClicks inp.mx inp.my (assignFocus inp.mx inp.my (pressStage inp s))
      else pressStage inp s) ∧
    (frame stof inp s).state.messagePopup = s.messagePopup ∧
    (frame stof inp s).state.saveLog = s.saveLog ∧
    (frame stof inp s).state.manager.students.Perm s.manager.students ∧
    (frame stof inp s).state.manager.students.length = s.manager.students.length := by
  have hvis : s.detailsPanel.visible = true := by
    rcases hopen with h | ⟨hr, ht⟩
    · exact h
    · cases hv : s.detailsPanel.visible
      · exact absurd (reachable_panel stof s hr hv) ht
      · rfl
  have hcs := clickStage_open stof inp s hvis
  obtain ⟨hm, hp, hl⟩ := frame_store stof inp s
  have hperm : (frame stof inp s).state.manager.students.Perm s.manager.students := by
    rw [hm, hcs]
    split
    · have hb : (assignFocus inp.mx inp.my (pressStage inp s)).manager = s.manager := by simp
      have hh := headerClicks_perm inp.mx inp.my (assignFocus inp.mx inp.my (pressStage inp s))
      rw [hb] at hh
      exact hh
    · simp
  refine ⟨fun mx my h => ⟨inButton_x mx my h, inButton_left mx my h⟩, ?_, ?_, hcs, ?_, ?_,
    hperm, hperm.length_eq⟩
  · intro hb
    by_contra hc
    have hc2 : clickFlag inp s = true := by simpa using hc
    rw [clickFlag_open_not_inButton inp s hvis hc2] at hb
    exact absurd hb (by simp)
  · exact clickFlag_open_not_inButton inp s hvis
  · rw [hp, hcs]
    split <;> simp
  · rw [hl, hcs]
    split <;> simp

/-- C21 at a press on the Add button while the panel is open on the only
record, with texts that the Add handler would accept. -/
theorem no_button_handler_while_panel_open_witness :
    addReadyPanelOpen.detailsPanel.visible = true ∧
    inButton addPress.mx addPress.my = true ∧
    clickFlag addPress addReadyPanelOpen = false ∧
    (frame stofDecimal addPress addReadyPanelOpen).state.messagePopup =
      addReadyPanelOpen.messagePopup ∧
    (frame stofDecimal addPress addReadyPanelOpen).state.saveLog = addReadyPanelOpen.saveLog ∧
    (frame stofDecimal addPress addReadyPanelOpen).state.manager.students.length =
      addReadyPanelOpen.manager.students.length :=
  ⟨rfl, by decide!,
    (no_button_handler_while_panel_open stofDecimal addPress addReadyPanelOpen (Or.inl rfl)).2.1
      (by decide!),
    (no_button_handler_while_panel_open stofDecimal addPress addReadyPanelOpen
      (Or.inl rfl)).2.2.2.2.1,
    (no_button_handler_while_panel_open stofDecimal addPress addReadyPanelOpen
      (Or.inl rfl)).2.2.2.2.2.1,
    (no_button_handler_while_panel_open stofDecimal addPress addReadyPanelOpen
      (Or.inl rfl)).2.2.2.2.2.2.2⟩

end StudentGui
